import Mathlib

/-!
Verification of the Galaxy-DevKit Soroban core:
the ScVal codec (`scval-converter.ts`), the error classifier
(`error-parser.ts`), the invocation orchestrator
(`soroban-contract-manager.ts`) and the contract event monitor
(`contract-event-monitor.ts`), shallowly embedded in Lean.

JavaScript values are modelled by the inductive `JVal`; the tagged-union
wire representation `xdr.ScVal` is modelled by `ScV`.  Machine integers are
modelled as `Int` with the external numeric constructors' range checks made
explicit where the library performs them.  Fallible code returns
`Except String` carrying the source's error messages.  Floating point is
not modelled: JS numbers appear only as integral values.
-/

namespace Galaxy

/-- Model of the dynamic JavaScript values fed to the codec.
`vint` is an integral JS number (non-integral numbers are floating point and
are outside this embedding); `vbig` is a `bigint`; `vbytes` a `Buffer`;
`vmap` a JS `Map` (entry list in insertion order); `vobj` a plain object
(own enumerable string-keyed properties in order); `vset` a JS `Set`. -/
inductive JVal where
  | vnull
  | vbool (b : Bool)
  | vint (n : Int)
  | vbig (n : Int)
  | vstr (s : String)
  | vbytes (bs : List Nat)
  | varr (xs : List JVal)
  | vmap (es : List (JVal × JVal))
  | vobj (es : List (String × JVal))
  | vset (xs : List JVal)
  deriving Repr

mutual

/-- Structural boolean equality on `JVal` (stands in for the JS
SameValueZero comparison on the values the model can express). -/
def beqJV : JVal → JVal → Bool
  | .vnull, .vnull => true
  | .vbool a, .vbool b => a == b
  | .vint a, .vint b => a == b
  | .vbig a, .vbig b => a == b
  | .vstr a, .vstr b => a == b
  | .vbytes a, .vbytes b => a == b
  | .varr a, .varr b => beqJVList a b
  | .vmap a, .vmap b => beqJVPairs a b
  | .vobj a, .vobj b => beqJVObj a b
  | .vset a, .vset b => beqJVList a b
  | _, _ => false
termination_by structural x _ => x

/-- Element-wise `beqJV` on lists. -/
def beqJVList : List JVal → List JVal → Bool
  | [], [] => true
  | a :: as, b :: bs => beqJV a b && beqJVList as bs
  | _, _ => false
termination_by structural x _ => x

/-- Entry-wise `beqJV` on entry lists. -/
def beqJVPairs : List (JVal × JVal) → List (JVal × JVal) → Bool
  | [], [] => true
  | (k₁, v₁) :: as, (k₂, v₂) :: bs => beqJV k₁ k₂ && beqJV v₁ v₂ && beqJVPairs as bs
  | _, _ => false
termination_by structural x _ => x

/-- Entry-wise equality on string-keyed entry lists. -/
def beqJVObj : List (String × JVal) → List (String × JVal) → Bool
  | [], [] => true
  | (k₁, v₁) :: as, (k₂, v₂) :: bs => k₁ == k₂ && beqJV v₁ v₂ && beqJVObj as bs
  | _, _ => false
termination_by structural x _ => x

end

instance : BEq JVal := ⟨beqJV⟩

/-- Model of the `xdr.ScVal` tagged union (the wire value).  Only the tags
that `ScValConverter` constructs or destructures are modelled, plus
`timepoint` as a representative of the real `ScVal` tags that fall into
`fromScVal`'s default (`Unsupported ScVal type`) branch.  Numeric payloads
are unbounded `Int`s: the `xdr` constructors store the given number and
validate only on serialization, which is outside this embedding; the
`ScInt` conversions, which do range-check at construction time, are given
explicit range checks in the encoder. -/
inductive ScV where
  | void
  | bool (b : Bool)
  | u32 (n : Int)
  | i32 (n : Int)
  | u64 (n : Int)
  | i64 (n : Int)
  | u128 (n : Int)
  | i128 (n : Int)
  | u256 (n : Int)
  | i256 (n : Int)
  | f32 (n : Int)
  | f64 (n : Int)
  | bytes (bs : List Nat)
  | str (s : String)
  | symbol (s : String)
  | address (s : String)
  | vec (xs : List ScV)
  | map (es : List (ScV × ScV))
  | timepoint (n : Int)
  deriving Repr

/-- The `ScType` union from `contract-types.ts` (the explicit type hints). -/
inductive ScType where
  | void | bool | u32 | i32 | u64 | i64 | u128 | i128 | u256 | i256
  | f32 | f64 | bytes | string | symbol | address
  | option | result | vec | map | set | tuple
  deriving DecidableEq, Repr

/-! ### Models of the JavaScript builtin coercions used by the converter -/

/-- Models the JS `Boolean(value)` coercion: `null`, `false`, `0`, `0n` and
the empty string are falsy; every object is truthy. -/
def jsTruthy : JVal → Bool
  | .vnull => false
  | .vbool b => b
  | .vint n => decide (n ≠ 0)
  | .vbig n => decide (n ≠ 0)
  | .vstr s => decide (s ≠ "")
  | .vbytes _ => true
  | .varr _ => true
  | .vmap _ => true
  | .vobj _ => true
  | .vset _ => true

/-- Models the JS `Number(value)` coercion on the inputs the embedding can
express.  `Number(null) = 0`, booleans map to `0`/`1`, integral numbers and
bigints map to themselves, a numeric string parses and an empty string is
`0`.  Coercions whose JS result is `NaN` or non-integral (non-numeric
strings, objects) are floating-point territory outside this embedding and
are mapped to `0`; no claim exercises those inputs. -/
def jsNumber : JVal → Int
  | .vnull => 0
  | .vbool b => if b then 1 else 0
  | .vint n => n
  | .vbig n => n
  | .vstr s => (s.trim.toInt?).getD 0
  | .vbytes _ => 0
  | .varr _ => 0
  | .vmap _ => 0
  | .vobj _ => 0
  | .vset _ => 0

mutual

/-- Models the JS `String(value)` coercion.  A `Buffer` key is decoded
byte-by-byte (multi-byte UTF-8 sequences are approximated); arrays print as
their comma-joined elements with `null` printing as the empty string;
`Map`, `Set` and plain objects print their `Object.prototype.toString`
tags.  No claim evaluates this function. -/
def jsString : JVal → String
  | .vnull => "null"
  | .vbool b => if b then "true" else "false"
  | .vint n => toString n
  | .vbig n => toString n
  | .vstr s => s
  | .vbytes bs => String.mk (bs.map (fun b => Char.ofNat b))
  | .varr xs => String.intercalate "," (jsStringList xs)
  | .vmap _ => "[object Map]"
  | .vobj _ => "[object Object]"
  | .vset _ => "[object Set]"

/-- Stringifies array elements: inside an array, JS prints `null` and
`undefined` as the empty string. -/
def jsStringList : List JVal → List String
  | [] => []
  | .vnull :: xs => "" :: jsStringList xs
  | x :: xs => jsString x :: jsStringList xs

end

/-- Models the `new ScInt(value)` constructor from `@stellar/stellar-sdk`:
it accepts a bigint, an integral number or a numeric string and throws on
anything else. -/
def scIntOf : JVal → Except String Int
  | .vint n => .ok n
  | .vbig n => .ok n
  | .vstr s =>
      match s.toInt? with
      | some n => .ok n
      | none => .error "ScInt: invalid input"
  | _ => .error "ScInt: invalid input"

/-- Models `ScInt#toU64` and friends: the conversion throws when the value
does not fit the target width.  `lo`/`hi` delimit the inclusive-exclusive
range. -/
def scIntFit (lo hi n : Int) (tag : String) : Except String Int :=
  if lo ≤ n ∧ n < hi then .ok n else .error ("value out of range for " ++ tag)

/-- Models the JS `typeof value === 'object'` test (true for `null`!). -/
def jsTypeofIsObject : JVal → Bool
  | .vnull => true
  | .vbytes _ => true
  | .varr _ => true
  | .vmap _ => true
  | .vobj _ => true
  | .vset _ => true
  | _ => false

/-- Is the value a JS `Map` instance (`value instanceof Map`)? -/
def jvIsMap : JVal → Bool
  | .vmap _ => true
  | _ => false

/-- Is the value a JS array (`Array.isArray(value)`)? -/
def jvIsArray : JVal → Bool
  | .varr _ => true
  | _ => false

/-- Is the value a JS `Set` instance (`value instanceof Set`)? -/
def jvIsSet : JVal → Bool
  | .vset _ => true
  | _ => false

/-- Models `Object.entries(value)`: a plain object yields its own
enumerable string-keyed entries, an array or `Buffer` yields index-keyed
entries, a `Map` or `Set` has no own enumerable properties, and `null`
throws a `TypeError`.  Primitive inputs never reach this model. -/
def jsObjectEntries : JVal → Except String (List (JVal × JVal))
  | .vnull => .error "Cannot convert undefined or null to object"
  | .vobj es => .ok (es.map (fun kv => (JVal.vstr kv.1, kv.2)))
  | .varr xs => .ok (xs.enum.map (fun p => (JVal.vstr (toString p.1), p.2)))
  | .vbytes bs => .ok (bs.enum.map (fun p => (JVal.vstr (toString p.1), JVal.vint (Int.ofNat p.2))))
  | .vmap _ => .ok []
  | .vset _ => .ok []
  | _ => .ok []

/-- Models `Buffer.from(string)`: the UTF-8 bytes of the string. -/
def strBytes (s : String) : List Nat :=
  s.toUTF8.toList.map (fun b => b.toNat)

/-- Models the JS `Map.prototype.set` step used when `fromScVal` rebuilds a
map: an entry with an equal key has its value replaced in place, otherwise
the new entry is appended.  JS compares keys by SameValueZero (reference
identity for objects); this model compares structurally, which coincides on
maps whose keys are structurally distinct. -/
def jsMapSet (m : List (JVal × JVal)) (k v : JVal) : List (JVal × JVal) :=
  if m.any (fun e => beqJV e.1 k) then
    m.map (fun e => if beqJV e.1 k then (e.1, v) else e)
  else
    m ++ [(k, v)]

/-- Builds a JS `Map` from a list of decoded entries by repeated
`Map.prototype.set`, as the `scvMap` branch of `fromScVal` does. -/
def jsMapOfList (es : List (JVal × JVal)) : List (JVal × JVal) :=
  es.foldl (fun m kv => jsMapSet m kv.1 kv.2) []

/-- Models the plain-object assignment `obj[key] = val` used by the `map`
hint of `fromTypedScVal`: an existing string key has its value replaced,
otherwise the property is appended. -/
def jsObjSet (m : List (String × JVal)) (k : String) (v : JVal) : List (String × JVal) :=
  if m.any (fun e => e.1 == k) then
    m.map (fun e => if e.1 == k then (e.1, v) else e)
  else
    m ++ [(k, v)]

/-- Models `new Set(list)`: keeps the first occurrence of each element
(SameValueZero, modelled structurally). -/
def jsSetOfList (xs : List JVal) : List JVal :=
  xs.foldl (fun acc x => if acc.any (fun y => beqJV y x) then acc else acc ++ [x]) []

namespace ScValConverter

/-- The string branch of the unhinted `toScVal`: a 56-character string
starting with `G` is tried as an `Address` (throwing parses fall back to a
plain string), everything else is a plain string.  Factored out because the
object branch passes its (string) keys through the same code. -/
def encodeJsStr (addrOk : String → Bool) (s : String) : ScV :=
  if s.startsWith "G" && s.length == 56 && addrOk s then .address s else .str s

mutual

/-- `ScValConverter.toScVal` without a hint (the auto-detect branch),
embedded from `scval-converter.ts` lines 16-91.  `addrOk` models which
strings the external `new Address(value)` constructor accepts; the encoder
only consults it for 56-character strings starting with `G`, mirroring the
source's guarded `try`.  A bigint goes through `new ScInt(value).toU64()`
(non-negative) or `.toI64()` (negative), whose range checks are explicit
here.  A `Set` instance falls into the generic object branch, and
`Object.entries` of a `Set` is empty, so it encodes as an empty map.  The
final `throw` of the source (`Unsupported type for ScVal conversion`) is
unreachable for the value forms modelled here: functions and JS symbols are
not modelled. -/
def toScValAuto (addrOk : String → Bool) : JVal → Except String ScV
  | .vnull => .ok .void
  | .vbool b => .ok (.bool b)
  | .vint n => .ok (.i32 n)
  | .vbig n =>
      if 0 ≤ n then
        do return .u64 (← scIntFit 0 (2 ^ 64) n "u64")
      else
        do return .i64 (← scIntFit (-(2 ^ 63)) (2 ^ 63) n "i64")
  | .vstr s => .ok (encodeJsStr addrOk s)
  | .vbytes bs => .ok (.bytes bs)
  | .varr xs => do return .vec (← encAutoList addrOk xs)
  | .vmap es => do return .map (← encAutoPairs addrOk es)
  | .vobj es => do return .map (← encAutoObj addrOk es)
  | .vset _ => .ok (.map [])
termination_by structural v => v

/-- Encodes the items of an array (`value.map(item => this.toScVal(item))`). -/
def encAutoList (addrOk : String → Bool) : List JVal → Except String (List ScV)
  | [] => .ok []
  | x :: xs => do return (← toScValAuto addrOk x) :: (← encAutoList addrOk xs)
termination_by structural v => v

/-- Encodes the entries of a JS `Map` (`key` and `val` both through the
unhinted `toScVal`). -/
def encAutoPairs (addrOk : String → Bool) : List (JVal × JVal) → Except String (List (ScV × ScV))
  | [] => .ok []
  | (k, v) :: es => do
      return (← toScValAuto addrOk k, ← toScValAuto addrOk v) :: (← encAutoPairs addrOk es)
termination_by structural v => v

/-- Encodes the entries of a plain object: the string key goes through the
unhinted `toScVal` (and may therefore become an `address` wire value). -/
def encAutoObj (addrOk : String → Bool) : List (String × JVal) → Except String (List (ScV × ScV))
  | [] => .ok []
  | (k, v) :: es => do
      return (encodeJsStr addrOk k, ← toScValAuto addrOk v) :: (← encAutoObj addrOk es)
termination_by structural v => v

end

/-- The entry list a `map` hint encodes: a `Map`'s own entries, otherwise
`Object.entries(value)`. -/
def mapHintEntries (v : JVal) : Except String (List (JVal × JVal)) :=
  match v with
  | .vmap es => .ok es
  | _ => jsObjectEntries v

/-- `ScValConverter.toTypedScVal`, embedded from `scval-converter.ts` lines
96-198.  The `u32`/`i32`/`f32`/`f64` hints coerce with `Number(value)`; the
wide integer hints go through `new ScInt(value)` with the target-width
range check; `bytes` uses `Buffer.from` for non-buffers (strings as UTF-8,
arrays byte-wise modulo 256, anything else a `TypeError`); `symbol` hands
the value to the XDR constructor, which accepts only strings; `address`
parses strings and calls `.toScVal()` on anything else, a `TypeError` for
the non-string values modelled here; the closed `ScType` union makes
`result` the only hint reaching the source's default `throw`. -/
def toTypedScVal (addrOk : String → Bool) (v : JVal) : ScType → Except String ScV
  | .void => .ok .void
  | .bool => .ok (.bool (jsTruthy v))
  | .u32 => .ok (.u32 (jsNumber v))
  | .i32 => .ok (.i32 (jsNumber v))
  | .u64 => do return .u64 (← scIntFit 0 (2 ^ 64) (← scIntOf v) "u64")
  | .i64 => do return .i64 (← scIntFit (-(2 ^ 63)) (2 ^ 63) (← scIntOf v) "i64")
  | .u128 => do return .u128 (← scIntFit 0 (2 ^ 128) (← scIntOf v) "u128")
  | .i128 => do return .i128 (← scIntFit (-(2 ^ 127)) (2 ^ 127) (← scIntOf v) "i128")
  | .u256 => do return .u256 (← scIntFit 0 (2 ^ 256) (← scIntOf v) "u256")
  | .i256 => do return .i256 (← scIntFit (-(2 ^ 255)) (2 ^ 255) (← scIntOf v) "i256")
  | .f32 => .ok (.f32 (jsNumber v))
  | .f64 => .ok (.f64 (jsNumber v))
  | .bytes =>
      match v with
      | .vbytes bs => .ok (.bytes bs)
      | .vstr s => .ok (.bytes (strBytes s))
      | .varr xs => .ok (.bytes (xs.map (fun x => ((jsNumber x) % 256).toNat)))
      | _ => .error "Buffer.from: unsupported input"
  | .string => .ok (.str (jsString v))
  | .symbol =>
      match v with
      | .vstr s => .ok (.symbol s)
      | _ => .error "scvSymbol: expected a string"
  | .address =>
      match v with
      | .vstr s => if addrOk s then .ok (.address s) else .error "Address: invalid address"
      | _ => .error "value.toScVal is not a function"
  | .option =>
      match v with
      | .vnull => .ok .void
      | _ => toScValAuto addrOk v
  | .vec =>
      match v with
      | .varr xs => do return .vec (← encAutoList addrOk xs)
      | _ => .error "Expected array for vec type"
  | .map =>
      if !(jvIsMap v) && !(jsTypeofIsObject v) then
        .error "Expected object or Map for map type"
      else do
        return .map (← encAutoPairs addrOk (← mapHintEntries v))
  | .set =>
      match v with
      | .varr xs => do return .vec (← encAutoList addrOk xs)
      | .vset xs => do return .vec (← encAutoList addrOk xs)
      | _ => .error "Expected array or Set for set type"
  | .tuple =>
      match v with
      | .varr xs => do return .vec (← encAutoList addrOk xs)
      | _ => .error "Expected array for tuple type"
  | .result => .error "Unsupported ScType: result"

/-- `ScValConverter.toScVal`: `null`/`undefined` become `void` before the
hint is consulted; with a hint the typed path runs, otherwise auto-detect. -/
def toScVal (addrOk : String → Bool) (v : JVal) (t : Option ScType) : Except String ScV :=
  match v with
  | .vnull => .ok .void
  | _ =>
      match t with
      | some ty => toTypedScVal addrOk v ty
      | none => toScValAuto addrOk v

mutual

/-- `ScValConverter.fromScVal`, embedded from `scval-converter.ts` lines
203-281.  The six wide integer tags all decode through
`new ScInt(...).toBigInt()`, so they produce bigints; `f32`/`f64` produce
JS numbers (modelled integral); `symbol` and `address` decode to strings; a
`map` is rebuilt entry by entry with `Map.prototype.set`.  `timepoint`
stands for the real wire tags that fall into the default branch and throw
`Unsupported ScVal type`. -/
def fromScVal : ScV → Except String JVal
  | .void => .ok .vnull
  | .bool b => .ok (.vbool b)
  | .u32 n => .ok (.vint n)
  | .i32 n => .ok (.vint n)
  | .u64 n => .ok (.vbig n)
  | .i64 n => .ok (.vbig n)
  | .u128 n => .ok (.vbig n)
  | .i128 n => .ok (.vbig n)
  | .u256 n => .ok (.vbig n)
  | .i256 n => .ok (.vbig n)
  | .f32 n => .ok (.vint n)
  | .f64 n => .ok (.vint n)
  | .bytes bs => .ok (.vbytes bs)
  | .str s => .ok (.vstr s)
  | .symbol s => .ok (.vstr s)
  | .address s => .ok (.vstr s)
  | .vec xs => do return .varr (← decList xs)
  | .map es => do return .vmap (jsMapOfList (← decPairs es))
  | .timepoint _ => .error "Unsupported ScVal type: scvTimepoint"
termination_by structural v => v

/-- Decodes the items of a wire vector. -/
def decList : List ScV → Except String (List JVal)
  | [] => .ok []
  | x :: xs => do return (← fromScVal x) :: (← decList xs)
termination_by structural v => v

/-- Decodes the entries of a wire map. -/
def decPairs : List (ScV × ScV) → Except String (List (JVal × JVal))
  | [] => .ok []
  | (k, v) :: es => do return (← fromScVal k, ← fromScVal v) :: (← decPairs es)
termination_by structural v => v

end

/-- `ScValConverter.fromTypedScVal`, embedded from `scval-converter.ts`
lines 310-390.  Hints with a single expected tag return `null` on a tag
mismatch; the six wide integer hints delegate to `fromScVal` whatever the
tag is; `option` returns `null` for `void` and otherwise delegates to
`fromScVal`; `map` rebuilds a plain object whose keys are stringified;
`set` rebuilds a JS `Set` from a decoded vector.  The closed `ScType` union
makes `result` the only hint reaching the default `throw`. -/
def fromTypedScVal (sv : ScV) : ScType → Except String JVal
  | .void => .ok .vnull
  | .bool =>
      match sv with
      | .bool b => .ok (.vbool b)
      | _ => .ok .vnull
  | .u32 =>
      match sv with
      | .u32 n => .ok (.vint n)
      | _ => .ok .vnull
  | .i32 =>
      match sv with
      | .i32 n => .ok (.vint n)
      | _ => .ok .vnull
  | .u64 => fromScVal sv
  | .i64 => fromScVal sv
  | .u128 => fromScVal sv
  | .i128 => fromScVal sv
  | .u256 => fromScVal sv
  | .i256 => fromScVal sv
  | .f32 =>
      match sv with
      | .f32 n => .ok (.vint n)
      | _ => .ok .vnull
  | .f64 =>
      match sv with
      | .f64 n => .ok (.vint n)
      | _ => .ok .vnull
  | .bytes =>
      match sv with
      | .bytes bs => .ok (.vbytes bs)
      | _ => .ok .vnull
  | .string =>
      match sv with
      | .str s => .ok (.vstr s)
      | _ => .ok .vnull
  | .symbol =>
      match sv with
      | .symbol s => .ok (.vstr s)
      | _ => .ok .vnull
  | .address =>
      match sv with
      | .address s => .ok (.vstr s)
      | _ => .ok .vnull
  | .option =>
      match sv with
      | .void => .ok .vnull
      | _ => fromScVal sv
  | .vec =>
      match sv with
      | .vec xs => do return .varr (← decList xs)
      | _ => .ok .vnull
  | .tuple =>
      match sv with
      | .vec xs => do return .varr (← decList xs)
      | _ => .ok .vnull
  | .map =>
      match sv with
      | .map es => do
          let ps ← decPairs es
          return .vobj (ps.foldl
            (fun o kv =>
              jsObjSet o
                (match kv.1 with
                 | .vstr s => s
                 | k => jsString k)
                kv.2) [])
      | _ => .ok .vnull
  | .set =>
      match sv with
      | .vec xs => do return .vset (jsSetOfList (← decList xs))
      | _ => .ok .vnull
  | .result => .error "Unsupported ScType: result"

/-- `ScValConverter.encodeArgs` body once the length guard has passed:
each argument is encoded with its positional hint (or none). -/
def encodeArgsZip (addrOk : String → Bool) : List JVal → List ScType → Except String (List ScV)
  | [], _ => .ok []
  | x :: xs, t :: ts => do return (← toScVal addrOk x (some t)) :: (← encodeArgsZip addrOk xs ts)
  | x :: xs, [] => do return (← toScVal addrOk x none) :: (← encodeArgsZip addrOk xs [])

/-- Encodes every argument without hints (`types` absent). -/
def encodeArgsAll (addrOk : String → Bool) : List JVal → Except String (List ScV)
  | [] => .ok []
  | x :: xs => do return (← toScVal addrOk x none) :: (← encodeArgsAll addrOk xs)

/-- `ScValConverter.encodeArgs`, embedded from `scval-converter.ts` lines
286-295: with a hint list of the wrong length it throws
`Number of types must match number of arguments`, otherwise each argument
is encoded with its positional hint (`types[index]`, which is only ragged
when the guard failed). -/
def encodeArgs (addrOk : String → Bool) (args : List JVal) (types : Option (List ScType)) :
    Except String (List ScV) :=
  match types with
  | some ts =>
      if ts.length ≠ args.length then
        .error "Number of types must match number of arguments"
      else
        encodeArgsZip addrOk args ts
  | none => encodeArgsAll addrOk args

/-- `ScValConverter.decodeResult`: with a hint, the typed decoder; without,
the plain decoder. -/
def decodeResult (res : ScV) (t : Option ScType) : Except String JVal :=
  match t with
  | some ty => fromTypedScVal res ty
  | none => fromScVal res

end ScValConverter

/-! ### Error classifier (`error-parser.ts`) -/

/-- The `SorobanError` data (message, numeric code, taxonomy tag; the
optional contract/method context is irrelevant to the classification
functions modelled here). -/
structure SorobanError where
  message : String
  code : Int
  type : String
  deriving DecidableEq, Repr

/-- Does the JS string `s` contain `pat` as a substring
(`String.prototype.includes`)?  `headMatches pat l`: `pat` is an initial
segment of `l`. -/
def headMatches : List Char → List Char → Bool
  | [], _ => true
  | _ :: _, [] => false
  | a :: as, b :: bs => a == b && headMatches as bs

/-- Models `s.includes(pat)`. -/
def strIncludes (s pat : String) : Bool :=
  (List.range (s.toList.length + 1)).any (fun i => headMatches pat.toList (s.toList.drop i))

namespace ErrorParser

/-- `ErrorParser.parseErrorCode`, embedded from `error-parser.ts`: the
fixed table for platform codes 1-11 and the `UnknownCode` fallback. -/
def parseErrorCode (code : Int) : SorobanError :=
  if code = 1 then ⟨"Contract panicked", 1, "ContractPanic"⟩
  else if code = 2 then ⟨"Arithmetic overflow", 2, "ArithmeticOverflow"⟩
  else if code = 3 then ⟨"Division by zero", 3, "DivisionByZero"⟩
  else if code = 4 then ⟨"Invalid arithmetic", 4, "InvalidArithmetic"⟩
  else if code = 5 then ⟨"Invalid input", 5, "InvalidInput"⟩
  else if code = 6 then ⟨"Index out of bounds", 6, "IndexOutOfBounds"⟩
  else if code = 7 then ⟨"Memory access violation", 7, "MemoryAccessViolation"⟩
  else if code = 8 then ⟨"Invalid conversion", 8, "InvalidConversion"⟩
  else if code = 9 then ⟨"Missing value in optional", 9, "MissingValue"⟩
  else if code = 10 then ⟨"Expected error in result", 10, "ExpectedError"⟩
  else if code = 11 then ⟨"Host context error", 11, "HostContextError"⟩
  else ⟨"Unknown error code: " ++ toString code, code, "UnknownCode"⟩

/-- Looks a key up in an extracted error `Map` (JS `Map.prototype.get`,
SameValueZero modelled structurally). -/
def mapGet (es : List (JVal × JVal)) (k : JVal) : Option JVal :=
  (es.find? (fun e => beqJV e.1 k)).map (fun e => e.2)

/-- `ErrorParser.parseErrorStruct`: reads `code`, `message` and `type` out
of an error map. -/
def parseErrorStruct (errorMap : List (JVal × JVal)) : SorobanError :=
  let code := mapGet errorMap (.vstr "code")
  let message := mapGet errorMap (.vstr "message")
  let type := mapGet errorMap (.vstr "type")
  let msgStr := fun (dflt : String) =>
    match message with
    | some (.vstr s) => s
    | _ => dflt
  let typeStr :=
    match type with
    | some (.vstr s) => s
    | _ => "ContractError"
  match code with
  | some (.vint n) => ⟨msgStr "Contract error", n, typeStr⟩
  | _ => ⟨msgStr "Unknown contract error", 0, typeStr⟩

/-- `ErrorParser.extractScValValue`: only `void`, `bool`, `u32`, `i32`,
`string` and `symbol` payloads are unwrapped in the source; every other tag
is returned as the opaque `ScVal` object itself, modelled here by the
non-Map, non-number, non-string stand-in `JVal.vobj []` (the claims never
inspect the opaque cases). -/
def extractScValValue (sv : ScV) : JVal :=
  match sv with
  | .void => .vnull
  | .bool b => .vbool b
  | .u32 n => .vint n
  | .i32 n => .vint n
  | .str s => .vstr s
  | .symbol s => .vstr s
  | _ => .vobj []

/-- `ErrorParser.extractErrorValue`: a `u32`/`i32` yields a number, a
string/symbol a string, a map a JS `Map` of extracted entries; any other
tag is returned as the opaque `ScVal` object itself, again modelled by
`JVal.vobj []` (the `scvError` tag is not modelled). -/
def extractErrorValue (result : ScV) : JVal :=
  match result with
  | .u32 n => .vint n
  | .i32 n => .vint n
  | .str s => .vstr s
  | .symbol s => .vstr s
  | .map es =>
      .vmap (jsMapOfList (es.map (fun e => (extractScValValue e.1, extractScValValue e.2))))
  | _ => .vobj []

/-- `ErrorParser.parseError`, embedded from `error-parser.ts` lines
464-499: no payload means `Unknown`; an extracted `Map` is parsed as an
error struct, a number as an error code, a string as a `Custom` error, and
anything else reports `InvalidFormat`. -/
def parseError (result : Option ScV) : SorobanError :=
  match result with
  | none => ⟨"Unknown error occurred", -1, "Unknown"⟩
  | some sv =>
      match extractErrorValue sv with
      | .vmap es => parseErrorStruct es
      | .vint n => parseErrorCode n
      | .vstr s => ⟨s, 0, "Custom"⟩
      | other => ⟨"Unrecognized error format: " ++ jsString other, -1, "InvalidFormat"⟩

/-- `ErrorParser.parseSimulationError`, embedded from `error-parser.ts`
lines 547-585: the free-text message is scanned for the five known
substrings in source order (`insufficient fee` first), falling back to a
generic `SimulationError`; with no message, a result payload goes through
`parseError`. -/
def parseSimulationError (error : Option String) (result : Option ScV) : SorobanError :=
  match error with
  | some e =>
      if strIncludes e "insufficient fee" then
        ⟨"Insufficient fee for transaction", 4001, "InsufficientFee"⟩
      else if strIncludes e "insufficient balance" then
        ⟨"Insufficient balance", 4002, "InsufficientBalance"⟩
      else if strIncludes e "contract not found" then
        ⟨"Contract not found", 4003, "ContractNotFound"⟩
      else if strIncludes e "method not found" then
        ⟨"Method not found", 4004, "MethodNotFound"⟩
      else if strIncludes e "invalid argument" then
        ⟨"Invalid argument", 4005, "InvalidArgument"⟩
      else
        ⟨e, 4000, "SimulationError"⟩
  | none =>
      match result with
      | some r => parseError (some r)
      | none => ⟨"Simulation failed", 4000, "SimulationError"⟩

/-- `ErrorParser.isRecoverableError`, embedded from `event-decoder.ts`
lines 759-768. -/
def isRecoverableError (error : SorobanError) : Bool :=
  ["InsufficientFee", "InsufficientBalance", "NetworkError", "Timeout"].contains error.type

/-- `ErrorParser.shouldRetry`, embedded from `event-decoder.ts` lines
773-787: non-recoverable errors are never retried, retries are capped at 3
attempts, and `InsufficientBalance`/`ContractNotFound` are excluded even
when recoverable. -/
def shouldRetry (error : SorobanError) (attemptCount : Nat) : Bool :=
  if !(isRecoverableError error) then false
  else if attemptCount ≥ 3 then false
  else !(["InsufficientBalance", "ContractNotFound"].contains error.type)

end ErrorParser

/-! ### Invocation orchestrator (`soroban-contract-manager.ts`) -/

/-- The authorization entries `parseAuth` would return (the source is a
stub that always returns `[]`, so the type needs no inhabitants). -/
inductive SorobanAuthEntry where
  deriving Repr

/-- A decoded contract event as produced by `parseEvents` /
`convertRpcEventToDetail`. -/
structure ContractEventDetail where
  contractId : String
  type : String
  topics : List ScV
  data : ScV
  timestamp : Nat
  ledger : Nat
  txHash : String
  deriving Repr

/-- A raw contract event inside a transaction meta
(`sorobanMeta.events()`). -/
structure RawMetaEvent where
  contractId : Option String
  type : String
  topics : List ScV
  data : ScV
  deriving Repr

/-- `meta.v3()?.sorobanMeta()?`: the nested optional structure of a
transaction meta, reduced to the part `parseEvents` reads. -/
structure TxMeta where
  v3SorobanEvents : Option (Option (List RawMetaEvent))
  deriving Repr

/-- The dynamic argument `parseEvents` receives.  Its declared type is
`xdr.TransactionMeta`, but `convertSimulationToResult` passes
`simulation.result` — a simulate host-function result, which has no `v3`
method.  `other` models such a non-meta object: calling `.v3()` on it
raises a `TypeError`. -/
inductive MetaArg where
  | noneArg
  | meta (m : TxMeta)
  | other
  deriving Repr

/-- `SorobanContractManager.parseEvents` (part_003 lines 820-844): a
missing meta yields `[]`; a real meta yields its Soroban events with
zeroed timestamp/ledger and empty hash; a non-meta object raises the
`TypeError` that `meta.v3()` produces in JS. -/
def parseEvents (meta : MetaArg) : Except String (List ContractEventDetail) :=
  match meta with
  | .noneArg => .ok []
  | .other => .error "meta.v3 is not a function"
  | .meta m =>
      match m.v3SorobanEvents with
      | none => .ok []
      | some none => .ok []
      | some (some events) =>
          .ok (events.map (fun e =>
            { contractId := e.contractId.getD ""
              type := e.type
              topics := e.topics
              data := e.data
              timestamp := 0
              ledger := 0
              txHash := "" }))

/-- `SorobanContractManager.parseAuth`: the source stub returns `[]`. -/
def parseAuth (_result : Option ScV) : List SorobanAuthEntry := []

/-- The signing capability (only its public key is read by
`invokeContract`). -/
structure Keypair where
  publicKey : String
  deriving DecidableEq, Repr

/-- `ContractInvocationParams` from `contract-types.ts`; the optional
`simulateOnly` flag defaults to false. -/
structure ContractInvocationParams where
  contractId : String
  method : String
  args : List JVal
  caller : Keypair
  networkPassphrase : String
  simulateOnly : Bool
  deriving Repr

/-- An account as returned by `server.getAccount`. -/
structure Account where
  accountId : String
  sequence : Int
  deriving DecidableEq, Repr

/-- The transaction built by `TransactionBuilder` for a contract call:
only the fields the model needs to distinguish calls.  `prepared` and
`signed` record the effect of `prepareTransaction` and `sign`. -/
structure Tx where
  source : Account
  contractId : String
  method : String
  args : List ScV
  networkPassphrase : String
  prepared : Bool
  signed : Bool
  deriving Repr

/-- The simulate response: `SorobanRpc.Api.isSimulationSuccess` separates
the two variants.  `result` models `simulation.result`, the optional
simulate host-function result (held opaque as the wire value it wraps). -/
inductive SimulateResponse where
  | success (result : Option ScV)
  | failure (error : String)
  deriving Repr

/-- The `sendTransaction` response fields read by the orchestrator. -/
structure SendResponse where
  status : String
  hash : String
  deriving Repr

/-- The `getTransaction` response fields read by the orchestrator;
`success` models `SorobanRpc.Api.isGetTransactionSuccess`. -/
structure GetTxResponse where
  success : Bool
  returnValue : Option ScV
  ledger : Nat
  resultMetaXdr : MetaArg
  resultXdr : String
  deriving Repr

/-- The external RPC/SDK collaborators used by `invokeContract`, as pure
oracles: each field answers one primitive. -/
structure Platform where
  getAccount : String → Except String Account
  simulateTransaction : Tx → SimulateResponse
  sendTransaction : Tx → SendResponse
  getTransaction : String → GetTxResponse

/-- The `InvocationResult` record. -/
structure InvocationResult where
  result : Option ScV
  transactionHash : String
  ledger : Nat
  events : List ContractEventDetail
  auth : List SorobanAuthEntry
  deriving Repr

/-- `SorobanContractManager.convertSimulationToResult` (part_003 lines
858-868): projects a successful simulation into the invocation-result
shape with an empty transaction hash and ledger 0.  `parseEvents` is called
with `simulation.result`, which is not a transaction meta: when it is
present the call raises a `TypeError` (see `MetaArg.other`). -/
def convertSimulationToResult (simResult : Option ScV) : Except String InvocationResult := do
  let events ← parseEvents (match simResult with
    | none => .noneArg
    | some _ => .other)
  return { result := simResult
           transactionHash := ""
           ledger := 0
           events := events
           auth := parseAuth simResult }

/-- The body of `SorobanContractManager.invokeContract` (part_003 lines
480-559) before the surrounding `catch` rewraps errors: fetch the caller's
account, encode the arguments without hints, build the transaction,
simulate, short-circuit on `simulateOnly`, otherwise prepare, sign, submit
and poll to completion. -/
def invokeContractBody (addrOk : String → Bool) (p : Platform)
    (params : ContractInvocationParams) : Except String InvocationResult := do
  let account ← p.getAccount params.caller.publicKey
  let scArgs ← ScValConverter.encodeArgs addrOk params.args none
  let tx : Tx :=
    { source := account
      contractId := params.contractId
      method := params.method
      args := scArgs
      networkPassphrase := params.networkPassphrase
      prepared := false
      signed := false }
  match p.simulateTransaction tx with
  | .failure e => .error ("Simulation failed: " ++ e)
  | .success simResult =>
      if params.simulateOnly then
        convertSimulationToResult simResult
      else do
        let preparedTx : Tx := { tx with prepared := true }
        let signedTx : Tx := { preparedTx with signed := true }
        let response := p.sendTransaction signedTx
        if response.status ≠ "PENDING" then
          .error ("Transaction failed: " ++ response.status)
        else do
          let result := p.getTransaction response.hash
          if !result.success then
            .error ("Transaction execution failed: " ++ result.resultXdr)
          else do
            let events ← parseEvents result.resultMetaXdr
            return { result := result.returnValue
                     transactionHash := response.hash
                     ledger := result.ledger
                     events := events
                     auth := parseAuth result.returnValue }

/-- `SorobanContractManager.invokeContract`: the `catch` wraps any error
raised inside the pipeline as `Contract invocation failed: ...`. -/
def invokeContract (addrOk : String → Bool) (p : Platform)
    (params : ContractInvocationParams) : Except String InvocationResult :=
  match invokeContractBody addrOk p params with
  | .ok r => .ok r
  | .error e => .error ("Contract invocation failed: " ++ e)

/-! ### Event monitor (`contract-event-monitor.ts`)

The callbacks of a subscription cannot be carried by a shallow embedding,
so a subscription records only whether `onError` is present, and the events
a poll would hand to `onEvent` are returned in the poll's outcome, in
delivery order.  The queries a poll issues against `server.getEvents` are
likewise returned in the outcome so that trace properties (no query /
exactly one query) are statable. -/

/-- An `EventSubscription` (callbacks reduced to presence flags). -/
structure EventSubscription where
  id : String
  contractId : String
  eventTypes : Option (List String)
  hasOnError : Bool
  deriving Repr

/-- The mutable fields of a `ContractEventMonitor`: the subscription
registry, the polling-interval registry (timer handles reduced to the
subscription ids that own one) and the single shared `lastLedger` cursor. -/
structure MonitorState where
  subscriptions : List (String × EventSubscription)
  pollingIntervals : List String
  lastLedger : Nat
  deriving Repr

/-- The state a fresh `ContractEventMonitor` starts in (constructor). -/
def emptyMonitorState : MonitorState :=
  { subscriptions := [], pollingIntervals := [], lastLedger := 0 }

/-- `Map.prototype.set` on a string-keyed registry. -/
def regSet (m : List (String × EventSubscription)) (k : String) (v : EventSubscription) :
    List (String × EventSubscription) :=
  if m.any (fun e => e.1 == k) then
    m.map (fun e => if e.1 == k then (e.1, v) else e)
  else
    m ++ [(k, v)]

/-- `Map.prototype.get` on the registry. -/
def regGet (m : List (String × EventSubscription)) (k : String) : Option EventSubscription :=
  (m.find? (fun e => e.1 == k)).map (fun e => e.2)

/-- `ContractEventMonitor.getSubscriptions`:
`Array.from(this.subscriptions.values())`. -/
def getSubscriptions (st : MonitorState) : List EventSubscription :=
  st.subscriptions.map (fun e => e.2)

/-- The argument record of one `server.getEvents` call made by a poll. -/
structure EventQuery where
  startLedger : Nat
  endLedger : Nat
  contractId : String
  topics : Option (List String)
  deriving DecidableEq, Repr

/-- A raw RPC event (`SorobanRpc.Api.GetEventsResponseEvent`), reduced to
the fields `convertRpcEventToDetail` reads. -/
structure RpcEvent where
  contractId : Option String
  type : String
  topics : Option (List ScV)
  data : Option ScV
  timestamp : Option Nat
  ledger : Option Nat
  txHash : Option String
  deriving Repr

/-- `ContractEventMonitor.convertRpcEventToDetail`: fills the defaulted
fields (the trailing `...event` spread then re-copies the raw fields over
them; the model keeps the defaulted projection, which is what every
modelled consumer reads). -/
def convertRpcEventToDetail (e : RpcEvent) : ContractEventDetail :=
  { contractId := e.contractId.getD ""
    type := e.type
    topics := e.topics.getD []
    data := e.data.getD .void
    timestamp := e.timestamp.getD 0
    ledger := e.ledger.getD 0
    txHash := e.txHash.getD "" }

/-- The external RPC server as seen by the monitor: the latest-ledger
fetch and the event query, as pure oracles for a single poll. -/
structure ServerModel where
  latestLedger : Except String Nat
  getEvents : EventQuery → Except String (List RpcEvent)

/-- What one call to `subscribeToEvents` did. -/
structure SubscribeOutcome where
  state : MonitorState
  result : Except String String
  onErrorInvoked : Bool
  deriving Repr

/-- `ContractEventMonitor.subscribeToEvents`, embedded from
`contract-event-monitor.ts` lines 866-893: the subscription is stored
under the freshly generated id *before* the latest-ledger fetch; on
success the shared cursor is overwritten with the observed sequence and
polling starts; on failure `onError` (if present) is invoked and the error
is rethrown — the registry entry is not removed.  `freshId` stands for the
generated `generateSubscriptionId` value (timestamp + random suffix). -/
def subscribeToEvents (server : ServerModel) (st : MonitorState)
    (sub : EventSubscription) (freshId : String) : SubscribeOutcome :=
  let st1 : MonitorState :=
    { st with subscriptions := regSet st.subscriptions freshId { sub with id := freshId } }
  match server.latestLedger with
  | .ok seq =>
      let st2 : MonitorState := { st1 with lastLedger := seq }
      let st3 : MonitorState := { st2 with pollingIntervals := st2.pollingIntervals ++ [freshId] }
      { state := st3, result := .ok freshId, onErrorInvoked := false }
  | .error e =>
      { state := st1, result := .error e, onErrorInvoked := sub.hasOnError }

/-- What one call to `pollForEvents` did: the new state, the
`server.getEvents` calls it issued (in order) and the events it delivered
to `onEvent` (in order). -/
structure PollOutcome where
  state : MonitorState
  queries : List EventQuery
  delivered : List ContractEventDetail
  deriving Repr

/-- `ContractEventMonitor.pollForEvents`, embedded from
`contract-event-monitor.ts` lines 1012-1055: an unknown subscription id is
a no-op; a failed latest-ledger fetch is caught and changes nothing; an
unchanged ledger (`currentLedger <= lastLedger`) issues no query;
otherwise exactly one query over `(lastLedger, currentLedger]` is issued
and, only when it succeeds, its events are delivered and the shared cursor
is advanced to `currentLedger` (even when zero events came back); a failed
query is caught and leaves the cursor untouched. -/
def pollForEvents (server : ServerModel) (st : MonitorState) (subId : String) : PollOutcome :=
  match regGet st.subscriptions subId with
  | none => { state := st, queries := [], delivered := [] }
  | some sub =>
      match server.latestLedger with
      | .error _ => { state := st, queries := [], delivered := [] }
      | .ok currentLedger =>
          if currentLedger ≤ st.lastLedger then
            { state := st, queries := [], delivered := [] }
          else
            let q : EventQuery :=
              { startLedger := st.lastLedger + 1
                endLedger := currentLedger
                contractId := sub.contractId
                topics := sub.eventTypes }
            match server.getEvents q with
            | .error _ => { state := st, queries := [q], delivered := [] }
            | .ok evs =>
                { state := { st with lastLedger := currentLedger }
                  queries := [q]
                  delivered := evs.map convertRpcEventToDetail }

/-! ### Predicates used to state the claims -/

/-- Key `k` does not clash (structurally) with any key of `es`. -/
def keyFreshJV (k : JVal) (es : List (JVal × JVal)) : Bool :=
  es.all (fun e => !(beqJV k e.1))

/-- The keys of a map entry list are pairwise structurally distinct (as the
keys of a JS `Map` holding the modelled values are). -/
def nodupKeysJV : List (JVal × JVal) → Bool
  | [] => true
  | (k, _) :: es => keyFreshJV k es && nodupKeysJV es

mutual

/-- The representative values of the claimed round-trip law: every value
form the unhinted encoder maps onto a wire tag, with the wide integers
restricted to the ranges the external `ScInt` conversions accept and the
narrow integers to the i32 range, map keys pairwise distinct (a JS `Map`
cannot hold duplicate primitive keys), and no plain objects or `Set`s
(those encode to `map` wire values but decode to JS `Map`s, so they are
representatives of no wire type). -/
def Canonical : JVal → Bool
  | .vnull => true
  | .vbool _ => true
  | .vint n => decide (-(2 ^ 31) ≤ n ∧ n < 2 ^ 31)
  | .vbig n => decide (-(2 ^ 63) ≤ n ∧ n < 2 ^ 64)
  | .vstr _ => true
  | .vbytes _ => true
  | .varr xs => CanonicalList xs
  | .vmap es => nodupKeysJV es && CanonicalPairs es
  | .vobj _ => false
  | .vset _ => false
termination_by structural v => v

/-- `Canonical` on every element. -/
def CanonicalList : List JVal → Bool
  | [] => true
  | x :: xs => Canonical x && CanonicalList xs
termination_by structural v => v

/-- `Canonical` on every key and value. -/
def CanonicalPairs : List (JVal × JVal) → Bool
  | [] => true
  | (k, v) :: es => Canonical k && Canonical v && CanonicalPairs es
termination_by structural v => v

end

/-- Every key of `es` is absent from the accumulated map `acc` (the
invariant of the `Map.prototype.set` fold). -/
def keysAbsent (acc es : List (JVal × JVal)) : Bool :=
  es.all (fun kv => !(acc.any (fun e => beqJV e.1 kv.1)))

/-- The hints of `fromTypedScVal` that check for one expected wire tag and
answer `null` on any other tag.  The wide integer hints (`u64`..`i256`) and
`option` are deliberately not in this set: they delegate to the untyped
decoder. -/
def strictHint : ScType → Bool
  | .bool => true
  | .u32 => true
  | .i32 => true
  | .f32 => true
  | .f64 => true
  | .bytes => true
  | .string => true
  | .symbol => true
  | .address => true
  | .vec => true
  | .tuple => true
  | .map => true
  | .set => true
  | _ => false

/-- Does the wire value carry the tag the strict hint expects (`vec`,
`tuple` and `set` all expect the `vec` tag)? -/
def strictHintMatches (t : ScType) (sv : ScV) : Bool :=
  match t, sv with
  | .bool, .bool _ => true
  | .u32, .u32 _ => true
  | .i32, .i32 _ => true
  | .f32, .f32 _ => true
  | .f64, .f64 _ => true
  | .bytes, .bytes _ => true
  | .string, .str _ => true
  | .symbol, .symbol _ => true
  | .address, .address _ => true
  | .vec, .vec _ => true
  | .tuple, .vec _ => true
  | .map, .map _ => true
  | .set, .vec _ => true
  | _, _ => false

/-! ### Concrete fixtures -/

/-- An address oracle that rejects every string (the encoder then treats
every string as a plain string). -/
def noAddr : String → Bool := fun _ => false

/-- A platform whose simulation succeeds with a present host-function
result — the ordinary simulate-only situation. -/
def simOkPlatform : Platform :=
  { getAccount := fun _ => .ok { accountId := "GCALLER", sequence := 1 }
    simulateTransaction := fun _ => .success (some (.u32 7))
    sendTransaction := fun _ => { status := "PENDING", hash := "deadbeef" }
    getTransaction := fun _ =>
      { success := true, returnValue := some (.u32 7), ledger := 123
        resultMetaXdr := .noneArg, resultXdr := "" } }

/-- The same platform with an absent simulation result. -/
def simEmptyPlatform : Platform :=
  { simOkPlatform with simulateTransaction := fun _ => .success none }

/-- A simulate-only invocation request. -/
def simOnlyParams : ContractInvocationParams :=
  { contractId := "CDEMO"
    method := "get_value"
    args := []
    caller := { publicKey := "GCALLER" }
    networkPassphrase := "Test SDF Network ; September 2015"
    simulateOnly := true }

/-- A demo subscription (callbacks reduced to an `onError` presence flag). -/
def demoSub : EventSubscription :=
  { id := "", contractId := "CDEMO", eventTypes := none, hasOnError := true }

/-- A monitor state with one registered, polling subscription and the
cursor at ledger 100, as left by a successful subscribe that observed
ledger 100. -/
def demoState100 : MonitorState :=
  { subscriptions := [("s1", { demoSub with id := "s1" })]
    pollingIntervals := ["s1"]
    lastLedger := 100 }

/-- A server whose latest ledger is `n` and whose event query succeeds with
no events. -/
def srvAt (n : Nat) : ServerModel :=
  { latestLedger := .ok n, getEvents := fun _ => .ok [] }

/-- A server whose latest-ledger fetch fails. -/
def srvDown : ServerModel :=
  { latestLedger := .error "network down", getEvents := fun _ => .ok [] }

/-- A monitor state with two concurrently registered subscriptions and the
shared cursor at ledger 100. -/
def demoStateTwo : MonitorState :=
  { subscriptions := [("s1", { demoSub with id := "s1" }), ("s2", { demoSub with id := "s2" })]
    pollingIntervals := ["s1", "s2"]
    lastLedger := 100 }

/-! ### Round-trip machinery -/

/-- `Except.ok` feeds its payload to the continuation. -/
theorem exceptOk_bind {α β ε : Type} (x : α) (f : α → Except ε β) :
    (Except.ok x >>= f : Except ε β) = f x := rfl

/-- `Except.error` short-circuits the continuation. -/
theorem exceptError_bind {α β ε : Type} (e : ε) (f : α → Except ε β) :
    (Except.error e >>= f : Except ε β) = Except.error e := rfl

/-- `Except.bind` on a payload (the method form). -/
theorem exceptOk_bindM {α β ε : Type} (x : α) (f : α → Except ε β) :
    Except.bind (Except.ok x) f = f x := rfl

/-- `Except.bind` on a failure (the method form). -/
theorem exceptError_bindM {α β ε : Type} (e : ε) (f : α → Except ε β) :
    Except.bind (Except.error e : Except ε α) f = (Except.error e : Except ε β) := rfl

/-- Setting a key that is absent appends the entry. -/
theorem jsMapSet_fresh (m : List (JVal × JVal)) (k v : JVal)
    (h : m.any (fun e => beqJV e.1 k) = false) : jsMapSet m k v = m ++ [(k, v)] := by
  simp [jsMapSet, h]

/-- Folding `Map.prototype.set` over entries whose keys are pairwise
distinct and absent from the accumulator just appends them. -/
theorem foldl_jsMapSet : ∀ (es acc : List (JVal × JVal)),
    nodupKeysJV es = true → keysAbsent acc es = true →
    es.foldl (fun m kv => jsMapSet m kv.1 kv.2) acc = acc ++ es
  | [], acc, _, _ => by simp
  | (k, v) :: es, acc, hnd, habs => by
      simp only [nodupKeysJV, Bool.and_eq_true] at hnd
      simp only [keysAbsent, List.all_cons, Bool.and_eq_true] at habs
      have habs0 : acc.any (fun e => beqJV e.1 k) = false := by
        have h0 := habs.1
        cases hb : acc.any (fun e => beqJV e.1 k) with
        | false => rfl
        | true => rw [hb] at h0; exact Bool.noConfusion h0
      have hnext : keysAbsent (acc ++ [(k, v)]) es = true := by
        have habsTail := habs.2
        simp only [keysAbsent, List.all_eq_true] at habsTail ⊢
        intro kv' hmem
        have h1 := habsTail kv' hmem
        have h2 : beqJV k kv'.1 = false := by
          have hf := hnd.1
          simp only [keyFreshJV, List.all_eq_true] at hf
          have hfk := hf kv' hmem
          cases hb : beqJV k kv'.1 with
          | false => rfl
          | true => rw [hb] at hfk; exact Bool.noConfusion hfk
        have h1' : acc.any (fun e => beqJV e.1 kv'.1) = false := by
          cases hb : acc.any (fun e => beqJV e.1 kv'.1) with
          | false => rfl
          | true => rw [hb] at h1; exact Bool.noConfusion h1
        simp [List.any_append, h1', h2]
      calc ((k, v) :: es).foldl (fun m kv => jsMapSet m kv.1 kv.2) acc
          = es.foldl (fun m kv => jsMapSet m kv.1 kv.2) (acc ++ [(k, v)]) := by
            simp only [List.foldl_cons]
            rw [jsMapSet_fresh acc k v habs0]
        _ = (acc ++ [(k, v)]) ++ es := foldl_jsMapSet es (acc ++ [(k, v)]) hnd.2 hnext
        _ = acc ++ ((k, v) :: es) := by simp

/-- `jsMapOfList` is the identity on entry lists with pairwise distinct
keys: the decoder's `Map` rebuild preserves such maps verbatim. -/
theorem jsMapOfList_nodup (es : List (JVal × JVal)) (hnd : nodupKeysJV es = true) :
    jsMapOfList es = es := by
  have h := foldl_jsMapSet es [] hnd (by simp [keysAbsent])
  simpa [jsMapOfList] using h

mutual

/-- The unhinted encoder followed by the decoder is the identity on
canonical values. -/
theorem roundTripAuto (a : String → Bool) :
    ∀ v : JVal, Canonical v = true →
      (ScValConverter.toScValAuto a v).bind ScValConverter.fromScVal = .ok v
  | .vnull, _ => rfl
  | .vbool _, _ => rfl
  | .vint _, _ => rfl
  | .vbig n, h => by
      have h' : -(2 ^ 63) ≤ n ∧ n < 2 ^ 64 := by
        simpa [Canonical] using h
      by_cases h0 : 0 ≤ n
      · have hub : n < 18446744073709551616 := by omega
        simp [ScValConverter.toScValAuto, scIntFit, h0, hub,
          ScValConverter.fromScVal, exceptOk_bindM]
      · have hlb : -9223372036854775808 ≤ n := by omega
        have hub : n < 9223372036854775808 := by omega
        simp [ScValConverter.toScValAuto, scIntFit, h0, hlb, hub,
          ScValConverter.fromScVal, exceptOk_bindM]
  | .vstr s, _ => by
      simp only [ScValConverter.toScValAuto, ScValConverter.encodeJsStr]
      split <;> rfl
  | .vbytes _, _ => rfl
  | .varr xs, h => by
      have ih := roundTripList a xs (by simpa [Canonical] using h)
      cases henc : ScValConverter.encAutoList a xs with
      | error e => rw [henc, exceptError_bindM] at ih; exact Except.noConfusion ih
      | ok ws =>
          rw [henc, exceptOk_bindM] at ih
          simp [ScValConverter.toScValAuto, henc, exceptOk_bindM, exceptOk_bind,
            ScValConverter.fromScVal, ih]
  | .vmap es, h => by
      have hh : nodupKeysJV es = true ∧ CanonicalPairs es = true := by
        simpa [Canonical] using h
      have ih := roundTripPairs a es hh.2
      cases henc : ScValConverter.encAutoPairs a es with
      | error e => rw [henc, exceptError_bindM] at ih; exact Except.noConfusion ih
      | ok ws =>
          rw [henc, exceptOk_bindM] at ih
          simp [ScValConverter.toScValAuto, henc, exceptOk_bindM, exceptOk_bind,
            ScValConverter.fromScVal, ih, jsMapOfList_nodup es hh.1]
  | .vobj _, h => by simp [Canonical] at h
  | .vset _, h => by simp [Canonical] at h
termination_by structural v => v

/-- Element-wise round trip of a canonical list. -/
theorem roundTripList (a : String → Bool) :
    ∀ xs : List JVal, CanonicalList xs = true →
      (ScValConverter.encAutoList a xs).bind ScValConverter.decList = .ok xs
  | [], _ => rfl
  | x :: xs, h => by
      have hh : Canonical x = true ∧ CanonicalList xs = true := by
        simpa [CanonicalList] using h
      have ihx := roundTripAuto a x hh.1
      have ihs := roundTripList a xs hh.2
      cases hex : ScValConverter.toScValAuto a x with
      | error e => rw [hex, exceptError_bindM] at ihx; exact Except.noConfusion ihx
      | ok w =>
          rw [hex, exceptOk_bindM] at ihx
          cases hes : ScValConverter.encAutoList a xs with
          | error e => rw [hes, exceptError_bindM] at ihs; exact Except.noConfusion ihs
          | ok ws =>
              rw [hes, exceptOk_bindM] at ihs
              simp [ScValConverter.encAutoList, hex, hes, exceptOk_bind, exceptOk_bindM,
                ScValConverter.decList, ihx, ihs]
termination_by structural v => v

/-- Entry-wise round trip of a canonical entry list. -/
theorem roundTripPairs (a : String → Bool) :
    ∀ es : List (JVal × JVal), CanonicalPairs es = true →
      (ScValConverter.encAutoPairs a es).bind ScValConverter.decPairs = .ok es
  | [], _ => rfl
  | (k, v) :: es, h => by
      have hh : Canonical k = true ∧ Canonical v = true ∧ CanonicalPairs es = true := by
        simpa [CanonicalPairs, and_assoc] using h
      have ihk := roundTripAuto a k hh.1
      have ihv := roundTripAuto a v hh.2.1
      have ihs := roundTripPairs a es hh.2.2
      cases hek : ScValConverter.toScValAuto a k with
      | error e => rw [hek, exceptError_bindM] at ihk; exact Except.noConfusion ihk
      | ok wk =>
          rw [hek, exceptOk_bindM] at ihk
          cases hev : ScValConverter.toScValAuto a v with
          | error e => rw [hev, exceptError_bindM] at ihv; exact Except.noConfusion ihv
          | ok wv =>
              rw [hev, exceptOk_bindM] at ihv
              cases hes : ScValConverter.encAutoPairs a es with
              | error e => rw [hes, exceptError_bindM] at ihs; exact Except.noConfusion ihs
              | ok ws =>
                  rw [hes, exceptOk_bindM] at ihs
                  simp [ScValConverter.encAutoPairs, hek, hev, hes, exceptOk_bind,
                    exceptOk_bindM, ScValConverter.decPairs, ihk, ihv, ihs]
termination_by structural v => v

end

/-! ### The encoder never raises the argument-count-mismatch error

`encodeArgs` reserves `Number of types must match number of arguments` for
its length guard; every other error the per-argument conversions can raise
carries a different message. -/

/-- `scIntOf` fails only with its own message. -/
theorem scIntOf_error : ∀ (v : JVal) (e : String), scIntOf v = .error e → e = "ScInt: invalid input"
  | .vint _, _, h => Except.noConfusion h
  | .vbig _, _, h => Except.noConfusion h
  | .vstr s, e, h => by
      simp only [scIntOf] at h
      cases hs : s.toInt? with
      | none => rw [hs] at h; exact (Except.error.inj h).symm
      | some n => rw [hs] at h; exact Except.noConfusion h
  | .vnull, _, h => (Except.error.inj h).symm
  | .vbool _, _, h => (Except.error.inj h).symm
  | .vbytes _, _, h => (Except.error.inj h).symm
  | .varr _, _, h => (Except.error.inj h).symm
  | .vmap _, _, h => (Except.error.inj h).symm
  | .vobj _, _, h => (Except.error.inj h).symm
  | .vset _, _, h => (Except.error.inj h).symm

/-- `scIntFit` fails only with its range message. -/
theorem scIntFit_error (lo hi n : Int) (tag e : String)
    (h : scIntFit lo hi n tag = .error e) : e = "value out of range for " ++ tag := by
  unfold scIntFit at h
  split at h
  · exact Except.noConfusion h
  · exact (Except.error.inj h).symm

/-- `jsObjectEntries` fails only with the `TypeError` for `null`. -/
theorem jsObjectEntries_error : ∀ (v : JVal) (e : String),
    jsObjectEntries v = .error e → e = "Cannot convert undefined or null to object"
  | .vnull, _, h => (Except.error.inj h).symm
  | .vbool _, _, h => Except.noConfusion h
  | .vint _, _, h => Except.noConfusion h
  | .vbig _, _, h => Except.noConfusion h
  | .vstr _, _, h => Except.noConfusion h
  | .vbytes _, _, h => Except.noConfusion h
  | .varr _, _, h => Except.noConfusion h
  | .vmap _, _, h => Except.noConfusion h
  | .vobj _, _, h => Except.noConfusion h
  | .vset _, _, h => Except.noConfusion h

/-- `mapHintEntries` fails only through `jsObjectEntries`. -/
theorem mapHintEntries_error (v : JVal) (e : String)
    (h : ScValConverter.mapHintEntries v = .error e) :
    e = "Cannot convert undefined or null to object" := by
  cases v with
  | vmap es => exact Except.noConfusion h
  | vnull =>
      simp only [ScValConverter.mapHintEntries] at h
      exact jsObjectEntries_error _ _ h
  | vbool b =>
      simp only [ScValConverter.mapHintEntries] at h
      exact jsObjectEntries_error _ _ h
  | vint n =>
      simp only [ScValConverter.mapHintEntries] at h
      exact jsObjectEntries_error _ _ h
  | vbig n =>
      simp only [ScValConverter.mapHintEntries] at h
      exact jsObjectEntries_error _ _ h
  | vstr s =>
      simp only [ScValConverter.mapHintEntries] at h
      exact jsObjectEntries_error _ _ h
  | vbytes bs =>
      simp only [ScValConverter.mapHintEntries] at h
      exact jsObjectEntries_error _ _ h
  | varr xs =>
      simp only [ScValConverter.mapHintEntries] at h
      exact jsObjectEntries_error _ _ h
  | vobj es =>
      simp only [ScValConverter.mapHintEntries] at h
      exact jsObjectEntries_error _ _ h
  | vset xs =>
      simp only [ScValConverter.mapHintEntries] at h
      exact jsObjectEntries_error _ _ h

mutual

/-- The unhinted encoder never raises the count-mismatch message. -/
theorem toScValAutoNoCount (a : String → Bool) :
    ∀ v : JVal,
      ScValConverter.toScValAuto a v ≠ .error "Number of types must match number of arguments"
  | .vnull => fun h => Except.noConfusion h
  | .vbool _ => fun h => Except.noConfusion h
  | .vint _ => fun h => Except.noConfusion h
  | .vstr _ => fun h => Except.noConfusion h
  | .vbytes _ => fun h => Except.noConfusion h
  | .vset _ => fun h => Except.noConfusion h
  | .vbig n => by
      intro h
      simp only [ScValConverter.toScValAuto] at h
      split at h
      · cases hr : scIntFit 0 (2 ^ 64) n "u64" with
        | ok m => rw [hr] at h; exact Except.noConfusion h
        | error e =>
            rw [hr] at h
            have he := scIntFit_error _ _ _ _ _ hr
            have hc : e = "Number of types must match number of arguments" := Except.error.inj h
            rw [he] at hc
            exact absurd hc (by decide)
      · cases hr : scIntFit (-(2 ^ 63)) (2 ^ 63) n "i64" with
        | ok m => rw [hr] at h; exact Except.noConfusion h
        | error e =>
            rw [hr] at h
            have he := scIntFit_error _ _ _ _ _ hr
            have hc : e = "Number of types must match number of arguments" := Except.error.inj h
            rw [he] at hc
            exact absurd hc (by decide)
  | .varr xs => by
      intro h
      simp only [ScValConverter.toScValAuto] at h
      cases hl : ScValConverter.encAutoList a xs with
      | ok ws => rw [hl] at h; exact Except.noConfusion h
      | error e =>
          rw [hl] at h
          have hc : e = "Number of types must match number of arguments" := Except.error.inj h
          rw [hc] at hl
          exact encAutoListNoCount a xs hl
  | .vmap es => by
      intro h
      simp only [ScValConverter.toScValAuto] at h
      cases hl : ScValConverter.encAutoPairs a es with
      | ok ws => rw [hl] at h; exact Except.noConfusion h
      | error e =>
          rw [hl] at h
          have hc : e = "Number of types must match number of arguments" := Except.error.inj h
          rw [hc] at hl
          exact encAutoPairsNoCount a es hl
  | .vobj es => by
      intro h
      simp only [ScValConverter.toScValAuto] at h
      cases hl : ScValConverter.encAutoObj a es with
      | ok ws => rw [hl] at h; exact Except.noConfusion h
      | error e =>
          rw [hl] at h
          have hc : e = "Number of types must match number of arguments" := Except.error.inj h
          rw [hc] at hl
          exact encAutoObjNoCount a es hl
termination_by structural v => v

/-- The list encoder never raises the count-mismatch message. -/
theorem encAutoListNoCount (a : String → Bool) :
    ∀ xs : List JVal,
      ScValConverter.encAutoList a xs ≠ .error "Number of types must match number of arguments"
  | [] => fun h => Except.noConfusion h
  | x :: xs => by
      intro h
      simp only [ScValConverter.encAutoList] at h
      cases hx : ScValConverter.toScValAuto a x with
      | error e =>
          rw [hx] at h
          have hc : e = "Number of types must match number of arguments" := Except.error.inj h
          rw [hc] at hx
          exact toScValAutoNoCount a x hx
      | ok w =>
          rw [hx] at h
          cases hxs : ScValConverter.encAutoList a xs with
          | error e =>
              rw [hxs] at h
              have hc : e = "Number of types must match number of arguments" := Except.error.inj h
              rw [hc] at hxs
              exact encAutoListNoCount a xs hxs
          | ok ws => rw [hxs] at h; exact Except.noConfusion h
termination_by structural v => v

/-- The map-entry encoder never raises the count-mismatch message. -/
theorem encAutoPairsNoCount (a : String → Bool) :
    ∀ es : List (JVal × JVal),
      ScValConverter.encAutoPairs a es ≠ .error "Number of types must match number of arguments"
  | [] => fun h => Except.noConfusion h
  | (k, v) :: es => by
      intro h
      simp only [ScValConverter.encAutoPairs] at h
      cases hk : ScValConverter.toScValAuto a k with
      | error e =>
          rw [hk] at h
          have hc : e = "Number of types must match number of arguments" := Except.error.inj h
          rw [hc] at hk
          exact toScValAutoNoCount a k hk
      | ok wk =>
          rw [hk] at h
          cases hv : ScValConverter.toScValAuto a v with
          | error e =>
              rw [hv] at h
              have hc : e = "Number of types must match number of arguments" := Except.error.inj h
              rw [hc] at hv
              exact toScValAutoNoCount a v hv
          | ok wv =>
              rw [hv] at h
              cases hes : ScValConverter.encAutoPairs a es with
              | error e =>
                  rw [hes] at h
                  have hc : e = "Number of types must match number of arguments" :=
                    Except.error.inj h
                  rw [hc] at hes
                  exact encAutoPairsNoCount a es hes
              | ok ws => rw [hes] at h; exact Except.noConfusion h
termination_by structural v => v

/-- The object-entry encoder never raises the count-mismatch message. -/
theorem encAutoObjNoCount (a : String → Bool) :
    ∀ es : List (String × JVal),
      ScValConverter.encAutoObj a es ≠ .error "Number of types must match number of arguments"
  | [] => fun h => Except.noConfusion h
  | (k, v) :: es => by
      intro h
      simp only [ScValConverter.encAutoObj] at h
      cases hv : ScValConverter.toScValAuto a v with
      | error e =>
          rw [hv] at h
          have hc : e = "Number of types must match number of arguments" := Except.error.inj h
          rw [hc] at hv
          exact toScValAutoNoCount a v hv
      | ok wv =>
          rw [hv] at h
          cases hes : ScValConverter.encAutoObj a es with
          | error e =>
              rw [hes] at h
              have hc : e = "Number of types must match number of arguments" := Except.error.inj h
              rw [hc] at hes
              exact encAutoObjNoCount a es hes
          | ok ws => rw [hes] at h; exact Except.noConfusion h
termination_by structural v => v

end

/-- The typed encoder never raises the count-mismatch message either. -/
theorem toTypedScValNoCount (a : String → Bool) (v : JVal) (t : ScType) :
    ScValConverter.toTypedScVal a v t ≠ .error "Number of types must match number of arguments" := by
  have hwide : ∀ (c : Int → ScV) (lo hi : Int) (tag : String),
      ("value out of range for " ++ tag ≠ "Number of types must match number of arguments") →
      (do pure (c (← scIntFit lo hi (← scIntOf v) tag)) :
        Except String ScV) = .error "Number of types must match number of arguments" → False := by
    intro c lo hi tag htag h
    cases hs : scIntOf v with
    | error e =>
        rw [hs, exceptError_bind] at h
        have hc := Except.error.inj h
        rw [scIntOf_error v e hs] at hc
        exact absurd hc (by decide)
    | ok m =>
        rw [hs, exceptOk_bind] at h
        cases hr : scIntFit lo hi m tag with
        | ok r => rw [hr, exceptOk_bind] at h; exact Except.noConfusion h
        | error e =>
            rw [hr, exceptError_bind] at h
            have hc := Except.error.inj h
            rw [scIntFit_error _ _ _ _ _ hr] at hc
            exact absurd hc htag
  cases t with
  | void => exact fun h => Except.noConfusion h
  | bool => exact fun h => Except.noConfusion h
  | u32 => exact fun h => Except.noConfusion h
  | i32 => exact fun h => Except.noConfusion h
  | f32 => exact fun h => Except.noConfusion h
  | f64 => exact fun h => Except.noConfusion h
  | string => exact fun h => Except.noConfusion h
  | u64 =>
      intro h
      simp only [ScValConverter.toTypedScVal] at h
      exact hwide ScV.u64 0 (2 ^ 64) "u64" (by decide) h
  | i64 =>
      intro h
      simp only [ScValConverter.toTypedScVal] at h
      exact hwide ScV.i64 (-(2 ^ 63)) (2 ^ 63) "i64" (by decide) h
  | u128 =>
      intro h
      simp only [ScValConverter.toTypedScVal] at h
      exact hwide ScV.u128 0 (2 ^ 128) "u128" (by decide) h
  | i128 =>
      intro h
      simp only [ScValConverter.toTypedScVal] at h
      exact hwide ScV.i128 (-(2 ^ 127)) (2 ^ 127) "i128" (by decide) h
  | u256 =>
      intro h
      simp only [ScValConverter.toTypedScVal] at h
      exact hwide ScV.u256 0 (2 ^ 256) "u256" (by decide) h
  | i256 =>
      intro h
      simp only [ScValConverter.toTypedScVal] at h
      exact hwide ScV.i256 (-(2 ^ 255)) (2 ^ 255) "i256" (by decide) h
  | bytes =>
      cases v <;> intro h <;>
        first
          | exact Except.noConfusion h
          | exact absurd (Except.error.inj h) (by decide)
  | symbol =>
      cases v <;> intro h <;>
        first
          | exact Except.noConfusion h
          | exact absurd (Except.error.inj h) (by decide)
  | address =>
      cases v with
      | vstr s =>
          intro h
          simp only [ScValConverter.toTypedScVal] at h
          split at h
          · exact Except.noConfusion h
          · exact absurd (Except.error.inj h) (by decide)
      | vnull => exact fun h => absurd (Except.error.inj h) (by decide)
      | vbool b => exact fun h => absurd (Except.error.inj h) (by decide)
      | vint n => exact fun h => absurd (Except.error.inj h) (by decide)
      | vbig n => exact fun h => absurd (Except.error.inj h) (by decide)
      | vbytes bs => exact fun h => absurd (Except.error.inj h) (by decide)
      | varr xs => exact fun h => absurd (Except.error.inj h) (by decide)
      | vmap es => exact fun h => absurd (Except.error.inj h) (by decide)
      | vobj es => exact fun h => absurd (Except.error.inj h) (by decide)
      | vset xs => exact fun h => absurd (Except.error.inj h) (by decide)
  | option =>
      cases v with
      | vnull => exact fun h => Except.noConfusion h
      | vbool b => exact fun h => toScValAutoNoCount a _ h
      | vint n => exact fun h => toScValAutoNoCount a _ h
      | vbig n => exact fun h => toScValAutoNoCount a _ h
      | vstr s => exact fun h => toScValAutoNoCount a _ h
      | vbytes bs => exact fun h => toScValAutoNoCount a _ h
      | varr xs => exact fun h => toScValAutoNoCount a _ h
      | vmap es => exact fun h => toScValAutoNoCount a _ h
      | vobj es => exact fun h => toScValAutoNoCount a _ h
      | vset xs => exact fun h => toScValAutoNoCount a _ h
  | vec =>
      cases v with
      | varr xs =>
          intro h
          simp only [ScValConverter.toTypedScVal] at h
          cases hl : ScValConverter.encAutoList a xs with
          | ok ws => rw [hl] at h; exact Except.noConfusion h
          | error e =>
              rw [hl] at h
              have hc := Except.error.inj h
              rw [hc] at hl
              exact encAutoListNoCount a xs hl
      | vnull => exact fun h => absurd (Except.error.inj h) (by decide)
      | vbool b => exact fun h => absurd (Except.error.inj h) (by decide)
      | vint n => exact fun h => absurd (Except.error.inj h) (by decide)
      | vbig n => exact fun h => absurd (Except.error.inj h) (by decide)
      | vstr s => exact fun h => absurd (Except.error.inj h) (by decide)
      | vbytes bs => exact fun h => absurd (Except.error.inj h) (by decide)
      | vmap es => exact fun h => absurd (Except.error.inj h) (by decide)
      | vobj es => exact fun h => absurd (Except.error.inj h) (by decide)
      | vset xs => exact fun h => absurd (Except.error.inj h) (by decide)
  | tuple =>
      cases v with
      | varr xs =>
          intro h
          simp only [ScValConverter.toTypedScVal] at h
          cases hl : ScValConverter.encAutoList a xs with
          | ok ws => rw [hl] at h; exact Except.noConfusion h
          | error e =>
              rw [hl] at h
              have hc := Except.error.inj h
              rw [hc] at hl
              exact encAutoListNoCount a xs hl
      | vnull => exact fun h => absurd (Except.error.inj h) (by decide)
      | vbool b => exact fun h => absurd (Except.error.inj h) (by decide)
      | vint n => exact fun h => absurd (Except.error.inj h) (by decide)
      | vbig n => exact fun h => absurd (Except.error.inj h) (by decide)
      | vstr s => exact fun h => absurd (Except.error.inj h) (by decide)
      | vbytes bs => exact fun h => absurd (Except.error.inj h) (by decide)
      | vmap es => exact fun h => absurd (Except.error.inj h) (by decide)
      | vobj es => exact fun h => absurd (Except.error.inj h) (by decide)
      | vset xs => exact fun h => absurd (Except.error.inj h) (by decide)
  | set =>
      cases v with
      | varr xs =>
          intro h
          simp only [ScValConverter.toTypedScVal] at h
          cases hl : ScValConverter.encAutoList a xs with
          | ok ws => rw [hl] at h; exact Except.noConfusion h
          | error e =>
              rw [hl] at h
              have hc := Except.error.inj h
              rw [hc] at hl
              exact encAutoListNoCount a xs hl
      | vset xs =>
          intro h
          simp only [ScValConverter.toTypedScVal] at h
          cases hl : ScValConverter.encAutoList a xs with
          | ok ws => rw [hl] at h; exact Except.noConfusion h
          | error e =>
              rw [hl] at h
              have hc := Except.error.inj h
              rw [hc] at hl
              exact encAutoListNoCount a xs hl
      | vnull => exact fun h => absurd (Except.error.inj h) (by decide)
      | vbool b => exact fun h => absurd (Except.error.inj h) (by decide)
      | vint n => exact fun h => absurd (Except.error.inj h) (by decide)
      | vbig n => exact fun h => absurd (Except.error.inj h) (by decide)
      | vstr s => exact fun h => absurd (Except.error.inj h) (by decide)
      | vbytes bs => exact fun h => absurd (Except.error.inj h) (by decide)
      | vmap es => exact fun h => absurd (Except.error.inj h) (by decide)
      | vobj es => exact fun h => absurd (Except.error.inj h) (by decide)
  | map =>
      intro h
      simp only [ScValConverter.toTypedScVal] at h
      split at h
      · exact absurd (Except.error.inj h) (by decide)
      · cases hm : ScValConverter.mapHintEntries v with
        | error e =>
            rw [hm, exceptError_bind] at h
            have hc := Except.error.inj h
            rw [mapHintEntries_error v e hm] at hc
            exact absurd hc (by decide)
        | ok entries =>
            rw [hm, exceptOk_bind] at h
            cases hp : ScValConverter.encAutoPairs a entries with
            | ok ws => rw [hp, exceptOk_bind] at h; exact Except.noConfusion h
            | error e =>
                rw [hp, exceptError_bind] at h
                have hc := Except.error.inj h
                rw [hc] at hp
                exact encAutoPairsNoCount a entries hp
  | result => exact fun h => absurd (Except.error.inj h) (by decide)

/-- `toScVal` (hinted or not) never raises the count-mismatch message. -/
theorem toScValNoCount (a : String → Bool) (v : JVal) (t : Option ScType) :
    ScValConverter.toScVal a v t ≠ .error "Number of types must match number of arguments" := by
  cases v with
  | vnull => exact fun h => Except.noConfusion h
  | vbool b => cases t with
      | some ty => exact toTypedScValNoCount a _ ty
      | none => exact toScValAutoNoCount a _
  | vint n => cases t with
      | some ty => exact toTypedScValNoCount a _ ty
      | none => exact toScValAutoNoCount a _
  | vbig n => cases t with
      | some ty => exact toTypedScValNoCount a _ ty
      | none => exact toScValAutoNoCount a _
  | vstr s => cases t with
      | some ty => exact toTypedScValNoCount a _ ty
      | none => exact toScValAutoNoCount a _
  | vbytes bs => cases t with
      | some ty => exact toTypedScValNoCount a _ ty
      | none => exact toScValAutoNoCount a _
  | varr xs => cases t with
      | some ty => exact toTypedScValNoCount a _ ty
      | none => exact toScValAutoNoCount a _
  | vmap es => cases t with
      | some ty => exact toTypedScValNoCount a _ ty
      | none => exact toScValAutoNoCount a _
  | vobj es => cases t with
      | some ty => exact toTypedScValNoCount a _ ty
      | none => exact toScValAutoNoCount a _
  | vset xs => cases t with
      | some ty => exact toTypedScValNoCount a _ ty
      | none => exact toScValAutoNoCount a _

/-- The per-argument encoding loop never raises the count-mismatch
message. -/
theorem encodeArgsZipNoCount (a : String → Bool) :
    ∀ (args : List JVal) (ts : List ScType),
      ScValConverter.encodeArgsZip a args ts
        ≠ .error "Number of types must match number of arguments"
  | [], _ => fun h => Except.noConfusion h
  | x :: xs, t :: ts => by
      intro h
      simp only [ScValConverter.encodeArgsZip] at h
      cases hx : ScValConverter.toScVal a x (some t) with
      | error e =>
          rw [hx] at h
          have hc := Except.error.inj h
          rw [hc] at hx
          exact toScValNoCount a x (some t) hx
      | ok w =>
          rw [hx] at h
          cases hxs : ScValConverter.encodeArgsZip a xs ts with
          | error e =>
              rw [hxs] at h
              have hc := Except.error.inj h
              rw [hc] at hxs
              exact encodeArgsZipNoCount a xs ts hxs
          | ok ws => rw [hxs] at h; exact Except.noConfusion h
  | x :: xs, [] => by
      intro h
      simp only [ScValConverter.encodeArgsZip] at h
      cases hx : ScValConverter.toScVal a x none with
      | error e =>
          rw [hx] at h
          have hc := Except.error.inj h
          rw [hc] at hx
          exact toScValNoCount a x none hx
      | ok w =>
          rw [hx] at h
          cases hxs : ScValConverter.encodeArgsZip a xs [] with
          | error e =>
              rw [hxs] at h
              have hc := Except.error.inj h
              rw [hc] at hxs
              exact encodeArgsZipNoCount a xs [] hxs
          | ok ws => rw [hxs] at h; exact Except.noConfusion h

/-- Each successfully encoded argument list pairs every argument, in order,
with the encoding of that argument under its positional hint. -/
theorem encodeArgsZip_forall2 (a : String → Bool) :
    ∀ (args : List JVal) (ts : List ScType) (ws : List ScV),
      args.length = ts.length →
      ScValConverter.encodeArgsZip a args ts = .ok ws →
      List.Forall₂
        (fun (p : JVal × ScType) w => ScValConverter.toScVal a p.1 (some p.2) = .ok w)
        (args.zip ts) ws
  | [], [], ws, _, h => by
      cases h
      exact List.Forall₂.nil
  | x :: xs, t :: ts, ws, hlen, h => by
      simp only [ScValConverter.encodeArgsZip] at h
      cases hx : ScValConverter.toScVal a x (some t) with
      | error e => rw [hx] at h; exact Except.noConfusion h
      | ok w =>
          rw [hx] at h
          cases hxs : ScValConverter.encodeArgsZip a xs ts with
          | error e => rw [hxs] at h; exact Except.noConfusion h
          | ok ws' =>
              rw [hxs] at h
              cases h
              exact List.Forall₂.cons hx
                (encodeArgsZip_forall2 a xs ts ws' (by simpa using hlen) hxs)
  | [], t :: ts, _, hlen, _ => by simp at hlen
  | x :: xs, [], _, hlen, _ => by simp at hlen

/-! ### The claims -/

/-- C1: Codec round-trip — for every primitive and container wire value
type and representative value `v` of that type (including `0`, negative
integers, empty vectors/maps and nested containers), decoding the encoding
of `v` with `ScValConverter.fromScVal (ScValConverter.toScVal v)` yields a
value equal to `v`.  `Canonical` delimits the representative values: every
encodable value form with wide integers inside the external conversions'
ranges, map keys pairwise distinct, and no plain objects or `Set`s (which
are representatives of no wire type: they decode to JS `Map`s). -/
theorem claim1_codec_round_trip (addrOk : String → Bool) (v : JVal)
    (h : Canonical v = true) :
    (ScValConverter.toScVal addrOk v none).bind ScValConverter.fromScVal = .ok v := by
  have hwrap : ScValConverter.toScVal addrOk v none = ScValConverter.toScValAuto addrOk v := by
    cases v <;> rfl
  rw [hwrap]
  exact roundTripAuto addrOk v h

/-- Witness for C1 at a nested map holding `0`, negative integers (both a
number and a bigint), a string, an empty vector and an empty map. -/
theorem claim1_codec_round_trip_witness :
    Canonical (JVal.vmap
      [(JVal.vint 0, JVal.varr [JVal.vbig (-5), JVal.vint (-3), JVal.vstr "hello"]),
       (JVal.vstr "k", JVal.vmap []),
       (JVal.vbool true, JVal.varr [])]) = true ∧
    (ScValConverter.toScVal noAddr (JVal.vmap
      [(JVal.vint 0, JVal.varr [JVal.vbig (-5), JVal.vint (-3), JVal.vstr "hello"]),
       (JVal.vstr "k", JVal.vmap []),
       (JVal.vbool true, JVal.varr [])]) none).bind ScValConverter.fromScVal
      = .ok (JVal.vmap
      [(JVal.vint 0, JVal.varr [JVal.vbig (-5), JVal.vint (-3), JVal.vstr "hello"]),
       (JVal.vstr "k", JVal.vmap []),
       (JVal.vbool true, JVal.varr [])]) :=
  ⟨rfl, claim1_codec_round_trip noAddr _ rfl⟩

/-- C2 counterexample: the claim says decode-with-hint returns `null` and
never throws on every tag mismatch, but the `u64` hint delegates to the
untyped decoder: a `bool` wire value decodes to the boolean (not `null`),
and a wire tag outside the decoder's table makes it throw. -/
theorem claim2_counterexample :
    strictHintMatches ScType.u64 (ScV.bool true) = false ∧
    ScValConverter.fromTypedScVal (ScV.bool true) ScType.u64 = .ok (JVal.vbool true) ∧
    ScValConverter.fromTypedScVal (ScV.timepoint 5) ScType.u64
      = .error "Unsupported ScVal type: scvTimepoint" :=
  ⟨rfl, rfl, rfl⟩

/-- C2 (amended): for the hints with a single expected wire tag (`bool`,
`u32`, `i32`, `f32`, `f64`, `bytes`, `string`, `symbol`, `address`, `vec`,
`tuple`, `map`, `set`) decode-with-hint returns `null` on a tag mismatch
without throwing; the wide integer hints delegate to the untyped decoder
instead.  Encode-with-hint always throws for a `vec` or `tuple` hint on a
non-array, for a `set` hint on a value that is neither array nor `Set`,
and for a `map` hint on a value that is neither a `Map` nor
`typeof`-object. -/
theorem claim2_hint_asymmetry (addrOk : String → Bool) (sv : ScV) (t : ScType) (v : JVal) :
    (strictHint t = true → strictHintMatches t sv = false →
      ScValConverter.fromTypedScVal sv t = .ok .vnull) ∧
    (jvIsArray v = false →
      ScValConverter.toTypedScVal addrOk v .vec = .error "Expected array for vec type") ∧
    (jvIsArray v = false →
      ScValConverter.toTypedScVal addrOk v .tuple = .error "Expected array for tuple type") ∧
    (jvIsArray v = false → jvIsSet v = false →
      ScValConverter.toTypedScVal addrOk v .set = .error "Expected array or Set for set type") ∧
    (jvIsMap v = false → jsTypeofIsObject v = false →
      ScValConverter.toTypedScVal addrOk v .map = .error "Expected object or Map for map type") := by
  refine ⟨?_, ?_, ?_, ?_, ?_⟩
  · intro hs hm
    cases t <;> cases sv <;>
      first
        | rfl
        | exact Bool.noConfusion hs
        | exact Bool.noConfusion hm
  · intro h1
    cases v <;>
      first
        | rfl
        | exact Bool.noConfusion h1
  · intro h1
    cases v <;>
      first
        | rfl
        | exact Bool.noConfusion h1
  · intro h1 h2
    cases v <;>
      first
        | rfl
        | exact Bool.noConfusion h1
        | exact Bool.noConfusion h2
  · intro h1 h2
    cases v <;>
      first
        | rfl
        | exact Bool.noConfusion h1
        | exact Bool.noConfusion h2

/-- Witness for C2 at the unit test's inputs: a `u32` hint over a string
wire value decodes to `null`, and the malformed encode shapes throw. -/
theorem claim2_hint_asymmetry_witness :
    ScValConverter.fromTypedScVal (ScV.str "hello") ScType.u32 = .ok JVal.vnull ∧
    ScValConverter.toTypedScVal noAddr (JVal.vint 1) ScType.vec
      = .error "Expected array for vec type" ∧
    ScValConverter.toTypedScVal noAddr (JVal.vint 1) ScType.set
      = .error "Expected array or Set for set type" ∧
    ScValConverter.toTypedScVal noAddr (JVal.vint 1) ScType.map
      = .error "Expected object or Map for map type" :=
  ⟨(claim2_hint_asymmetry noAddr (ScV.str "hello") ScType.u32 (JVal.vint 1)).1 rfl rfl,
   (claim2_hint_asymmetry noAddr (ScV.str "hello") ScType.u32 (JVal.vint 1)).2.1 rfl,
   (claim2_hint_asymmetry noAddr (ScV.str "hello") ScType.u32 (JVal.vint 1)).2.2.2.1 rfl rfl,
   (claim2_hint_asymmetry noAddr (ScV.str "hello") ScType.u32 (JVal.vint 1)).2.2.2.2 rfl rfl⟩

/-- C6 counterexample: the claim says an integral number wider than 32 bits
encodes as an i64-class wire value, but the encoder checks only
`Number.isInteger`: `2 ^ 40` (far above the i32 range) still encodes with
the `i32` tag. -/
theorem claim6_counterexample :
    ((2 : Int) ^ 31 ≤ 2 ^ 40) ∧
    ScValConverter.toScVal noAddr (JVal.vint (2 ^ 40)) none = .ok (.i32 (2 ^ 40)) :=
  ⟨by norm_num, rfl⟩

/-- C6 (amended): every integral native number, of any width, encodes
without a hint as an `i32` wire value; the i64-class branch of the number
case is reached only by non-integral numbers (floating point, outside this
embedding), and bigints take the `u64`/`i64` paths. -/
theorem claim6_unhinted_integer_encoding (addrOk : String → Bool) (n : Int) :
    ScValConverter.toScVal addrOk (JVal.vint n) none = .ok (.i32 n) := rfl

/-- C8 counterexample: with a hint list of matching length the claim says
`encodeArgs` returns one wire value per argument, but a `vec` hint over a
non-array argument makes it throw a shape error instead. -/
theorem claim8_counterexample :
    ([ScType.vec].length = [JVal.vint 1].length) ∧
    ScValConverter.encodeArgs noAddr [JVal.vint 1] (some [ScType.vec])
      = .error "Expected array for vec type" :=
  ⟨rfl, rfl⟩

/-- C8 (amended): `encodeArgs` throws the argument-count-mismatch error
exactly when a hint list of differing length is provided; with equal
lengths that error is never raised, and every successful run returns one
encoded wire value per argument, in order, each the encoding of its
argument under its positional hint — though an individual conversion may
still fail with a different (shape) error. -/
theorem claim8_encode_args (addrOk : String → Bool) (args : List JVal) (ts : List ScType) :
    (ts.length ≠ args.length →
      ScValConverter.encodeArgs addrOk args (some ts)
        = .error "Number of types must match number of arguments") ∧
    (ts.length = args.length →
      ScValConverter.encodeArgs addrOk args (some ts)
        ≠ .error "Number of types must match number of arguments") ∧
    (∀ ws, ScValConverter.encodeArgs addrOk args (some ts) = .ok ws →
      List.Forall₂
        (fun (p : JVal × ScType) w => ScValConverter.toScVal addrOk p.1 (some p.2) = .ok w)
        (args.zip ts) ws) := by
  refine ⟨?_, ?_, ?_⟩
  · intro hne
    simp only [ScValConverter.encodeArgs]
    rw [if_pos hne]
  · intro heq
    simp only [ScValConverter.encodeArgs]
    rw [if_neg (not_not_intro heq)]
    exact encodeArgsZipNoCount addrOk args ts
  · intro ws hok
    simp only [ScValConverter.encodeArgs] at hok
    by_cases heq : ts.length = args.length
    · rw [if_neg (not_not_intro heq)] at hok
      exact encodeArgsZip_forall2 addrOk args ts ws heq.symm hok
    · rw [if_pos heq] at hok
      exact Except.noConfusion hok

/-- Witness for C8 at the spec's own test inputs: `[1,2]` with one hint
throws the count-mismatch error, `[1,2]` with two hints does not. -/
theorem claim8_encode_args_witness :
    ScValConverter.encodeArgs noAddr [JVal.vint 1, JVal.vint 2] (some [ScType.u32])
      = .error "Number of types must match number of arguments" ∧
    ScValConverter.encodeArgs noAddr [JVal.vint 1, JVal.vint 2]
        (some [ScType.u32, ScType.u64])
      ≠ .error "Number of types must match number of arguments" :=
  ⟨(claim8_encode_args noAddr [JVal.vint 1, JVal.vint 2] [ScType.u32]).1 (by decide),
   (claim8_encode_args noAddr [JVal.vint 1, JVal.vint 2]
      [ScType.u32, ScType.u64]).2.1 (by decide)⟩

/-- C3: code bug — a simulate-only invocation whose simulation succeeds is
specified to return `transactionHash = ""` and `ledger = 0` without calling
submit/poll, and `convertSimulationToResult` does build exactly that
record; but it also calls `parseEvents(simulation.result)`, and a simulate
host-function result is not a transaction meta, so `meta.v3()` raises a
`TypeError` that the outer catch rewraps.  The normal case (a present
simulation result) therefore throws instead of returning; only the
degenerate case with an absent simulation result returns the specified
projection.  Submit and poll are indeed never reached on this path. -/
theorem claim3_simulate_only_bug :
    invokeContract noAddr simOkPlatform simOnlyParams
      = .error "Contract invocation failed: meta.v3 is not a function" ∧
    invokeContract noAddr simEmptyPlatform simOnlyParams
      = .ok { result := none, transactionHash := "", ledger := 0, events := [], auth := [] } :=
  ⟨rfl, rfl⟩

/-- C4: Retry policy — `shouldRetry` is false outside the recoverable tag
set, false for `InsufficientBalance` and `ContractNotFound` regardless,
false from the third attempt on, and for `InsufficientFee` true at
attempts 1 and 2 but false at attempt 3. -/
theorem claim4_retry_policy (e : SorobanError) (n : Nat) :
    ((["InsufficientFee", "InsufficientBalance", "NetworkError", "Timeout"] :
        List String).contains e.type = false → ErrorParser.shouldRetry e n = false) ∧
    (e.type = "InsufficientBalance" ∨ e.type = "ContractNotFound" →
      ErrorParser.shouldRetry e n = false) ∧
    (3 ≤ n → ErrorParser.shouldRetry e n = false) ∧
    (e.type = "InsufficientFee" →
      ErrorParser.shouldRetry e 1 = true ∧ ErrorParser.shouldRetry e 2 = true ∧
      ErrorParser.shouldRetry e 3 = false) := by
  refine ⟨?_, ?_, ?_, ?_⟩
  · intro h
    have hrec : ErrorParser.isRecoverableError e = false := by
      unfold ErrorParser.isRecoverableError
      exact h
    simp [ErrorParser.shouldRetry, hrec]
  · intro h
    cases h with
    | inl h =>
        have hrec : ErrorParser.isRecoverableError e = true := by
          unfold ErrorParser.isRecoverableError
          rw [h]
          decide
        have hex : (["InsufficientBalance", "ContractNotFound"] : List String).contains e.type
            = true := by
          rw [h]
          decide
        unfold ErrorParser.shouldRetry
        rw [hrec, hex]
        simp
    | inr h =>
        have hrec : ErrorParser.isRecoverableError e = false := by
          unfold ErrorParser.isRecoverableError
          rw [h]
          decide
        unfold ErrorParser.shouldRetry
        rw [hrec]
        simp
  · intro hn
    simp [ErrorParser.shouldRetry, hn]
  · intro h
    have hrec : ErrorParser.isRecoverableError e = true := by
      unfold ErrorParser.isRecoverableError
      rw [h]
      decide
    have hex : (["InsufficientBalance", "ContractNotFound"] : List String).contains e.type
        = false := by
      rw [h]
      decide
    refine ⟨?_, ?_, ?_⟩ <;>
      · unfold ErrorParser.shouldRetry
        rw [hrec, hex]
        decide

/-- Witness for C4: an `InsufficientFee` error retries at attempt 1 but
not at attempt 3, and a generic `SimulationError` never retries. -/
theorem claim4_retry_policy_witness :
    ErrorParser.shouldRetry ⟨"Insufficient fee for transaction", 4001, "InsufficientFee"⟩ 1
      = true ∧
    ErrorParser.shouldRetry ⟨"Insufficient fee for transaction", 4001, "InsufficientFee"⟩ 3
      = false ∧
    ErrorParser.shouldRetry ⟨"boom", 4000, "SimulationError"⟩ 1 = false ∧
    ErrorParser.shouldRetry ⟨"Insufficient balance", 4002, "InsufficientBalance"⟩ 1 = false :=
  ⟨((claim4_retry_policy ⟨"Insufficient fee for transaction", 4001, "InsufficientFee"⟩ 1).2.2.2
      rfl).1,
   ((claim4_retry_policy ⟨"Insufficient fee for transaction", 4001, "InsufficientFee"⟩ 1).2.2.2
      rfl).2.2,
   (claim4_retry_policy ⟨"boom", 4000, "SimulationError"⟩ 1).1 (by decide),
   (claim4_retry_policy ⟨"Insufficient balance", 4002, "InsufficientBalance"⟩ 1).2.1
      (Or.inl rfl)⟩

/-- C7 counterexample: the claim maps every message containing
`insufficient balance` to `InsufficientBalance`, but the rules run in
source order with `insufficient fee` first: a message containing both
classifies as `InsufficientFee`. -/
theorem claim7_counterexample :
    strIncludes "tx: insufficient fee insufficient balance" "insufficient balance" = true ∧
    (ErrorParser.parseSimulationError
        (some "tx: insufficient fee insufficient balance") none).type = "InsufficientFee" :=
  ⟨by decide, rfl⟩

/-- C7 (amended): `parseSimulationError` scans the message for the five
known substrings in the source's fixed order — `insufficient fee`,
`insufficient balance`, `contract not found`, `method not found`,
`invalid argument` — and the earliest matching rule fixes the tag, falling
back to the generic `SimulationError` tag (code 4000, original message)
when none occurs. -/
theorem claim7_error_classification (s : String) :
    (strIncludes s "insufficient fee" = true →
      (ErrorParser.parseSimulationError (some s) none).type = "InsufficientFee") ∧
    (strIncludes s "insufficient fee" = false →
      strIncludes s "insufficient balance" = true →
      (ErrorParser.parseSimulationError (some s) none).type = "InsufficientBalance") ∧
    (strIncludes s "insufficient fee" = false →
      strIncludes s "insufficient balance" = false →
      strIncludes s "contract not found" = true →
      (ErrorParser.parseSimulationError (some s) none).type = "ContractNotFound") ∧
    (strIncludes s "insufficient fee" = false →
      strIncludes s "insufficient balance" = false →
      strIncludes s "contract not found" = false →
      strIncludes s "method not found" = true →
      (ErrorParser.parseSimulationError (some s) none).type = "MethodNotFound") ∧
    (strIncludes s "insufficient fee" = false →
      strIncludes s "insufficient balance" = false →
      strIncludes s "contract not found" = false →
      strIncludes s "method not found" = false →
      strIncludes s "invalid argument" = true →
      (ErrorParser.parseSimulationError (some s) none).type = "InvalidArgument") ∧
    (strIncludes s "insufficient fee" = false →
      strIncludes s "insufficient balance" = false →
      strIncludes s "contract not found" = false →
      strIncludes s "method not found" = false →
      strIncludes s "invalid argument" = false →
      ErrorParser.parseSimulationError (some s) none = ⟨s, 4000, "SimulationError"⟩) := by
  refine ⟨?_, ?_, ?_, ?_, ?_, ?_⟩
  · intro h1
    simp [ErrorParser.parseSimulationError, h1]
  · intro h1 h2
    simp [ErrorParser.parseSimulationError, h1, h2]
  · intro h1 h2 h3
    simp [ErrorParser.parseSimulationError, h1, h2, h3]
  · intro h1 h2 h3 h4
    simp [ErrorParser.parseSimulationError, h1, h2, h3, h4]
  · intro h1 h2 h3 h4 h5
    simp [ErrorParser.parseSimulationError, h1, h2, h3, h4, h5]
  · intro h1 h2 h3 h4 h5
    simp [ErrorParser.parseSimulationError, h1, h2, h3, h4, h5]

/-- Witness for C7: a lone `insufficient balance` message classifies to
`InsufficientBalance`, and an unknown message falls back to the generic
tag. -/
theorem claim7_error_classification_witness :
    (ErrorParser.parseSimulationError (some "insufficient balance") none).type
      = "InsufficientBalance" ∧
    ErrorParser.parseSimulationError (some "boom") none
      = ⟨"boom", 4000, "SimulationError"⟩ :=
  ⟨(claim7_error_classification "insufficient balance").2.1 (by decide) (by decide),
   (claim7_error_classification "boom").2.2.2.2.2 (by decide) (by decide) (by decide)
     (by decide) (by decide)⟩

/-- Splitting a registry lookup at a cons cell. -/
theorem regGet_cons (k₁ : String) (v₁ : EventSubscription)
    (m : List (String × EventSubscription)) (k : String) :
    regGet ((k₁, v₁) :: m) k = if k₁ == k then some v₁ else regGet m k := by
  by_cases hk : (k₁ == k) = true
  · simp [regGet, List.find?_cons_of_pos, hk]
  · simp only [Bool.not_eq_true] at hk
    simp [regGet, List.find?_cons_of_neg, hk]

/-- Appending a fresh entry makes it findable. -/
theorem regGet_append_fresh : ∀ (m : List (String × EventSubscription)) (k : String)
    (v : EventSubscription), m.any (fun e => e.1 == k) = false →
    regGet (m ++ [(k, v)]) k = some v
  | [], k, v, _ => by simp [regGet_cons]
  | (k₁, v₁) :: m, k, v, h => by
      simp only [List.any_cons, Bool.or_eq_false_iff] at h
      rw [List.cons_append, regGet_cons]
      simp only [h.1, if_false]
      exact regGet_append_fresh m k v h.2

/-- Replacing the value at a present key makes the new value findable. -/
theorem regGet_map_set : ∀ (m : List (String × EventSubscription)) (k : String)
    (v : EventSubscription), m.any (fun e => e.1 == k) = true →
    regGet (m.map (fun e => if e.1 == k then (e.1, v) else e)) k = some v
  | [], _, _, h => by simp at h
  | (k₁, v₁) :: m, k, v, h => by
      by_cases hk : (k₁ == k) = true
      · simp only [List.map_cons]
        rw [show (if ((k₁, v₁) : String × EventSubscription).1 == k
            then (((k₁, v₁) : String × EventSubscription).1, v) else (k₁, v₁)) = (k₁, v) by
          simp [hk]]
        rw [regGet_cons]
        simp [hk]
      · have hkf : (k₁ == k) = false := by
          cases hb : (k₁ == k) with
          | false => rfl
          | true => exact absurd hb hk
        have h' : m.any (fun e => e.1 == k) = true := by
          simp only [List.any_cons, hkf, Bool.false_or] at h
          exact h
        simp only [List.map_cons]
        rw [show (if ((k₁, v₁) : String × EventSubscription).1 == k
            then (((k₁, v₁) : String × EventSubscription).1, v) else (k₁, v₁)) = (k₁, v₁) by
          simp [hkf]]
        rw [regGet_cons]
        simp only [hkf, if_false]
        exact regGet_map_set m k v h'

/-- `Map.prototype.set` followed by `get` at the same key yields the value
just stored. -/
theorem regGet_regSet (m : List (String × EventSubscription)) (k : String)
    (v : EventSubscription) : regGet (regSet m k v) k = some v := by
  unfold regSet
  by_cases h : m.any (fun e => e.1 == k) = true
  · rw [if_pos h]
    exact regGet_map_set m k v h
  · have h' : m.any (fun e => e.1 == k) = false := by
      cases hb : m.any (fun e => e.1 == k) with
      | false => rfl
      | true => exact absurd hb h
    rw [if_neg h]
    exact regGet_append_fresh m k v h'

/-- A successful registry lookup is visible among the registry's values. -/
theorem regGet_mem : ∀ (m : List (String × EventSubscription)) (k : String)
    (v : EventSubscription), regGet m k = some v → v ∈ m.map (fun e => e.2)
  | [], _, _, h => by simp [regGet] at h
  | (k₁, v₁) :: m, k, v, h => by
      rw [regGet_cons] at h
      by_cases hk : (k₁ == k) = true
      · rw [if_pos hk] at h
        cases h
        simp
      · rw [if_neg hk] at h
        simp only [List.map_cons, List.mem_cons]
        exact Or.inr (regGet_mem m k v h)

/-- C5: Polling cursor monotonicity — with a registered subscription, a
poll observing an unchanged latest ledger issues no event query and leaves
everything untouched, and a poll observing a larger ledger `L` whose query
succeeds issues exactly one query over the half-open range
`(lastLedger, L]` (startLedger `lastLedger + 1`, endLedger `L`) and then
advances the shared cursor to `L` even when zero events were returned, so
no ledger range is re-scanned or skipped. -/
theorem claim5_polling_cursor (server : ServerModel) (st : MonitorState)
    (subId : String) (sub : EventSubscription) (L : Nat) (evs : List RpcEvent)
    (hsub : regGet st.subscriptions subId = some sub) :
    (server.latestLedger = .ok L → L ≤ st.lastLedger →
      pollForEvents server st subId = { state := st, queries := [], delivered := [] }) ∧
    (server.latestLedger = .ok L → st.lastLedger < L →
      server.getEvents
          { startLedger := st.lastLedger + 1, endLedger := L,
            contractId := sub.contractId, topics := sub.eventTypes } = .ok evs →
      pollForEvents server st subId =
        { state := { st with lastLedger := L }
          queries :=
            [{ startLedger := st.lastLedger + 1, endLedger := L,
               contractId := sub.contractId, topics := sub.eventTypes }]
          delivered := evs.map convertRpcEventToDetail }) := by
  constructor
  · intro hL hle
    simp [pollForEvents, hsub, hL, hle]
  · intro hL hlt hq
    have hnle : ¬ (L ≤ st.lastLedger) := Nat.not_le.mpr hlt
    simp [pollForEvents, hsub, hL, hnle, hq]

/-- Witness for C5: the 100 / 100 / 150 scenario — after a subscribe left
the cursor at 100, the poll observing 100 issues no query, and the poll
observing 150 issues exactly one query with startLedger 101 and endLedger
150 and advances the cursor to 150 although zero events came back. -/
theorem claim5_polling_cursor_witness :
    pollForEvents (srvAt 100) demoState100 "s1"
      = { state := demoState100, queries := [], delivered := [] } ∧
    pollForEvents (srvAt 150) demoState100 "s1"
      = { state := { demoState100 with lastLedger := 150 }
          queries :=
            [{ startLedger := 101, endLedger := 150,
               contractId := "CDEMO", topics := none }]
          delivered := [] } :=
  ⟨(claim5_polling_cursor (srvAt 100) demoState100 "s1" { demoSub with id := "s1" } 100 []
      rfl).1 rfl (by decide),
   (claim5_polling_cursor (srvAt 150) demoState100 "s1" { demoSub with id := "s1" } 150 []
      rfl).2 rfl (by decide) rfl⟩

/-- C9: Shared polling cursor — every subscription of one monitor instance
reads and writes the single `lastLedger` field: a successful subscribe
overwrites it with the observed latest ledger, and one subscription's
successful poll advances it for every other subscription, so a subsequent
poll of a different subscription observing the same ledger issues no
query. -/
theorem claim9_shared_cursor (server server₂ : ServerModel) (st : MonitorState)
    (sub s₁ : EventSubscription) (freshId id₁ id₂ : String) (seq L : Nat)
    (evs : List RpcEvent) :
    (server.latestLedger = .ok seq →
      (subscribeToEvents server st sub freshId).state.lastLedger = seq) ∧
    (regGet st.subscriptions id₁ = some s₁ →
      server.latestLedger = .ok L →
      st.lastLedger < L →
      server.getEvents
          { startLedger := st.lastLedger + 1, endLedger := L,
            contractId := s₁.contractId, topics := s₁.eventTypes } = .ok evs →
      (pollForEvents server st id₁).state.lastLedger = L ∧
      (server₂.latestLedger = .ok L →
        (pollForEvents server₂ (pollForEvents server st id₁).state id₂).queries = [])) := by
  constructor
  · intro h
    simp [subscribeToEvents, h]
  · intro hsub hL hlt hq
    have hnle : ¬ (L ≤ st.lastLedger) := Nat.not_le.mpr hlt
    have hstate : (pollForEvents server st id₁).state = { st with lastLedger := L } := by
      simp [pollForEvents, hsub, hL, hnle, hq]
    refine ⟨by rw [hstate], ?_⟩
    intro h2
    rw [hstate]
    cases hg : regGet ({ st with lastLedger := L } : MonitorState).subscriptions id₂ with
    | none => simp [pollForEvents, hg]
    | some s₂ => simp [pollForEvents, hg, h2]

/-- Witness for C9: a subscribe observing ledger 100 sets the shared
cursor; with two registered subscriptions and the cursor at 100, a poll of
`s1` observing 150 advances the shared cursor, and the next poll of `s2`
observing the same ledger 150 issues no query. -/
theorem claim9_shared_cursor_witness :
    (subscribeToEvents (srvAt 100) emptyMonitorState demoSub "s1").state.lastLedger = 100 ∧
    (pollForEvents (srvAt 150) demoStateTwo "s1").state.lastLedger = 150 ∧
    (pollForEvents (srvAt 150) (pollForEvents (srvAt 150) demoStateTwo "s1").state "s2").queries
      = [] :=
  ⟨(claim9_shared_cursor (srvAt 100) (srvAt 100) emptyMonitorState demoSub demoSub
      "s1" "s1" "s2" 100 100 []).1 rfl,
   ((claim9_shared_cursor (srvAt 150) (srvAt 150) demoStateTwo demoSub
      { demoSub with id := "s1" } "x" "s1" "s2" 100 150 []).2 rfl rfl (by decide) rfl).1,
   ((claim9_shared_cursor (srvAt 150) (srvAt 150) demoStateTwo demoSub
      { demoSub with id := "s1" } "x" "s1" "s2" 100 150 []).2 rfl rfl (by decide) rfl).2 rfl⟩

/-- C10: Subscribe is not atomic on failure — when the initial
latest-ledger fetch fails, the subscribe call invokes `onError` exactly
when the callback is present and rethrows the error, but the subscription
entry inserted before the fetch stays in the registry (observable through
`getSubscriptions`) while no polling timer was started. -/
theorem claim10_subscribe_failure_keeps_registry (server : ServerModel) (st : MonitorState)
    (sub : EventSubscription) (freshId : String) (e : String)
    (hfail : server.latestLedger = .error e)
    (hfresh : st.pollingIntervals.contains freshId = false) :
    (subscribeToEvents server st sub freshId).result = .error e ∧
    (subscribeToEvents server st sub freshId).onErrorInvoked = sub.hasOnError ∧
    regGet (subscribeToEvents server st sub freshId).state.subscriptions freshId
      = some { sub with id := freshId } ∧
    { sub with id := freshId } ∈ getSubscriptions (subscribeToEvents server st sub freshId).state ∧
    (subscribeToEvents server st sub freshId).state.pollingIntervals.contains freshId
      = false := by
  have hout : subscribeToEvents server st sub freshId =
      { state :=
          { st with
            subscriptions := regSet st.subscriptions freshId { sub with id := freshId } }
        result := .error e
        onErrorInvoked := sub.hasOnError } := by
    simp [subscribeToEvents, hfail]
  rw [hout]
  refine ⟨rfl, rfl, regGet_regSet _ _ _, ?_, hfresh⟩
  simp only [getSubscriptions]
  exact regGet_mem _ _ _ (regGet_regSet st.subscriptions freshId { sub with id := freshId })

/-- Witness for C10: against a server whose latest-ledger fetch fails, the
subscribe call errors, notifies `onError`, leaves the new subscription
visible and starts no polling timer. -/
theorem claim10_subscribe_failure_keeps_registry_witness :
    (subscribeToEvents srvDown emptyMonitorState demoSub "s1").result = .error "network down" ∧
    (subscribeToEvents srvDown emptyMonitorState demoSub "s1").onErrorInvoked = true ∧
    regGet (subscribeToEvents srvDown emptyMonitorState demoSub "s1").state.subscriptions "s1"
      = some { demoSub with id := "s1" } ∧
    { demoSub with id := "s1" }
      ∈ getSubscriptions (subscribeToEvents srvDown emptyMonitorState demoSub "s1").state ∧
    (subscribeToEvents srvDown emptyMonitorState demoSub "s1").state.pollingIntervals.contains
      "s1" = false := by
  have h := claim10_subscribe_failure_keeps_registry srvDown emptyMonitorState demoSub "s1"
    "network down" rfl rfl
  exact ⟨h.1, h.2.1, h.2.2.1, h.2.2.2.1, h.2.2.2.2⟩

end Galaxy
